import Mathlib

/-!
# Pioneer: projectile (`Missile`) and renderer base class

A shallow embedding of `src/Missile.cpp`, `src/graphics/Renderer.cpp` and the
`MatrixTicket` guard of `src/graphics/Renderer.h`.

Conventions of the embedding:

* a `Body *` is the identity of the body it points to (`BodyPtr`), a pointer
  that may be null is an `Option BodyPtr`;
* a `double` or `float` value is the rational it denotes; positions and the
  length of a vector are taken as the program has them, and the arithmetic of
  the damage amount rounds each result to its format (`toDouble`, `toFloat`);
* calls that leave `Missile.cpp` (the damage handler of another body, the Lua
  event queue, the effect manager) are recorded, in order, in a list of `Call`s;
* collaborators whose code is not part of the embedded files (vector length,
  the physics integrator, the spatial query, the AI command, the typed JSON
  reads) are parameters; `JsonConv.library` gives the typed reads of the JSON
  library.
-/

set_option linter.unusedVariables false

namespace Pioneer

/-! ## Bodies, frames and the space -/

/-- Identity of a body (the value of a `Body *`). -/
abbrev BodyPtr := Nat

/-- Identity of a reference frame (the value of a `Frame *`). -/
abbrev FramePtr := Nat

/-- The `vector3d` of the source, with exact components. -/
structure vector3d where
  x : ℚ
  y : ℚ
  z : ℚ
deriving DecidableEq

/-- Component-wise difference, `operator-` of `vector3d`. -/
def vector3d.sub (a b : vector3d) : vector3d :=
  ⟨a.x - b.x, a.y - b.y, a.z - b.z⟩

instance : Sub vector3d := ⟨vector3d.sub⟩

/-- What `Missile.cpp` reads from, and writes to, the world: per body its
position, frame, object type and dead flag, the proximity query
`GetBodiesMaybeNear(body, radius)` and the body/index tables used by
serialization. -/
structure Space where
  GetPosition : BodyPtr → vector3d
  GetFrame : BodyPtr → FramePtr
  /-- The result of `IsType(Object::SHIP)`. -/
  IsShip : BodyPtr → Bool
  IsDead : BodyPtr → Bool
  GetBodiesMaybeNear : BodyPtr → ℚ → List BodyPtr
  GetIndexForBody : Option BodyPtr → Int
  GetBodyByIndex : Int → Option BodyPtr

/-- Modelled from the spec: `Space::KillBody` (Space.cpp is not among the
embedded files) removes the body from the world; the removal is what
`IsDead` reports afterwards, and nothing else of the space changes at the
moment of the call. -/
def Space.KillBody (sp : Space) (b : BodyPtr) : Space :=
  { sp with IsDead := fun b' => if b' = b then true else sp.IsDead b' }

/-- Calls that leave `Missile.cpp`, in the order they are issued. -/
inductive Call where
  /-- The call `body->OnDamage(attacker, kgDamage, dummy)`. -/
  | OnDamage (body : BodyPtr) (attacker : Option BodyPtr) (kgDamage : ℚ)
  /-- The call `LuaEvent::Queue("onShipHit", ship, attacker)`. -/
  | onShipHit (ship : BodyPtr) (attacker : Option BodyPtr)
  /-- The call `SfxManager::Add(body, TYPE_EXPLOSION)`. -/
  | SfxAdd_TYPE_EXPLOSION (body : BodyPtr)
deriving DecidableEq

/-- The damage calls a trace holds for `body`: attacker and amount of each. -/
def damageCallsTo (body : BodyPtr) : List Call → List (Option BodyPtr × ℚ)
  | [] => []
  | Call.OnDamage b a k :: cs =>
    if b = body then (a, k) :: damageCallsTo body cs else damageCallsTo body cs
  | _ :: cs => damageCallsTo body cs

/-- The `onShipHit` events a trace holds for `body`: the attacker of each. -/
def shipHitsTo (body : BodyPtr) : List Call → List (Option BodyPtr)
  | [] => []
  | Call.onShipHit b a :: cs =>
    if b = body then a :: shipHitsTo body cs else shipHitsTo body cs
  | _ :: cs => shipHitsTo body cs

/-- The explosion effects a trace holds. -/
def explosionEffects : List Call → List BodyPtr
  | [] => []
  | Call.SfxAdd_TYPE_EXPLOSION b :: cs => b :: explosionEffects cs
  | _ :: cs => explosionEffects cs

/-! ## Ship types and properties -/

/-- The fields of a `ShipType` descriptor that `Missile.cpp` reads. -/
structure ShipType where
  id : String
  modelName : String
  hullMass : Int
deriving DecidableEq

/-- The table `ShipType::types`, keyed by `ShipType::Id`. -/
abbrev ShipTypes := List (String × ShipType)

/-- The entry stored under `key`, when there is one. -/
def ShipTypes.find (types : ShipTypes) (key : String) : Option ShipType :=
  (List.find? (fun e => e.1 == key) types).map Prod.snd

/-- The expression `ShipType::types[key]`: `operator[]` of the associative
container returns the entry stored under `key`, and when there is none it first
inserts a default-constructed descriptor (`dflt`) under `key`. The result is
the table after the call and the descriptor referred to. -/
def ShipTypes.index (dflt : ShipType) (types : ShipTypes) (key : String) :
    ShipTypes × ShipType :=
  match types.find key with
  | some ty => (types, ty)
  | none => (types ++ [(key, dflt)], dflt)

/-- Values a property can hold. -/
inductive PropertyValue where
  | boolean (b : Bool)
  | number (q : ℚ)
  | string (s : String)
deriving DecidableEq

/-- The property table behind `Properties()`. -/
abbrev PropertyMap := String → Option PropertyValue

/-- The member template `PropertyMap::Set` (PropertyMap.h lines 15-20): the
table holds `v` under `k` afterwards, and `SendSignal(k)` notifies the
listeners of `k`. The result is the table and the keys signalled. -/
def PropertyMap.Set (p : PropertyMap) (k : String) (v : PropertyValue) :
    PropertyMap × List String :=
  (fun k' => if k' = k then some v else p k', [k])

/-! ## The projectile -/

/-- The members of a `Missile` that `Missile.cpp` reads or writes. `self` is
the `this` pointer; `m_type` is the descriptor `m_type` points to (the table
entries are never written through the pointer). Mass, model, propulsion and
the `m_decelerating` flag, which no member function modelled here reads, are
left out. -/
structure Missile (AICmd : Type) where
  self : BodyPtr
  m_type : ShipType
  m_owner : Option BodyPtr
  m_ownerIndex : Int
  m_power : Int
  m_armed : Bool
  m_curAICmd : Option AICmd
  m_aiMessage : Int
  Properties : PropertyMap

/-- Collaborators of the per-tick update whose code is outside `Missile.cpp`:
`vector3d::Length` and lines 135-140 of `TimeStepUpdate` (thrust, the
`DynamicBody` integrator and the fuel update), which move `body` within the
space. -/
structure Physics where
  Length : vector3d → ℚ
  integrate : BodyPtr → ℚ → Space → Space

variable {AICmd : Type}

/-- The constant `MISSILE_DETECTION_RADIUS` of `TimeStepUpdate` (line 142). -/
def MISSILE_DETECTION_RADIUS : ℚ := 100

/-- The constant `damageRadius` of `Explode` (line 178). -/
def damageRadius : ℚ := 200

/-- The constant `kgDamage` of `Explode` (line 179). -/
def kgDamage : ℚ := 10000

/-- The member `Missile::Arm` (lines 206-210): the projectile after the call
and the property signals sent. -/
def Missile.Arm (m : Missile AICmd) : Missile AICmd × List String :=
  ({ m with
      m_armed := true
      Properties := (m.Properties.Set "isArmed" (PropertyValue.boolean true)).1 },
    (m.Properties.Set "isArmed" (PropertyValue.boolean true)).2)

/-- The member `Missile::Disarm` (lines 212-216): the projectile after the
call and the property signals sent. -/
def Missile.Disarm (m : Missile AICmd) : Missile AICmd × List String :=
  ({ m with
      m_armed := false
      Properties := (m.Properties.Set "isArmed" (PropertyValue.boolean false)).1 },
    (m.Properties.Set "isArmed" (PropertyValue.boolean false)).2)

/-- The value of the externally observable property `isArmed`. -/
def Missile.isArmed (m : Missile AICmd) : Option PropertyValue :=
  m.Properties "isArmed"

/-- A call of `Arm` or of `Disarm`. -/
inductive ArmCall where
  | Arm
  | Disarm
deriving DecidableEq

/-- The value a call sets the armed flag to. -/
def ArmCall.value : ArmCall → Bool
  | ArmCall.Arm => true
  | ArmCall.Disarm => false

/-- One call of `Arm` or `Disarm` on a projectile. -/
def Missile.armCall (m : Missile AICmd) : ArmCall → Missile AICmd × List String
  | ArmCall.Arm => m.Arm
  | ArmCall.Disarm => m.Disarm

/-- A sequence of `Arm`/`Disarm` calls, in order: the projectile after the last
one and all the signals sent. -/
def Missile.armCalls (m : Missile AICmd) : List ArmCall → Missile AICmd × List String
  | [] => (m, [])
  | c :: cs =>
    ((Missile.armCalls (m.armCall c).1 cs).1,
      (m.armCall c).2 ++ (Missile.armCalls (m.armCall c).1 cs).2)

/-- Constants `Missile.cpp` names and other files define: the type ids of the
three missile tiers and the AI-error code for no error. -/
structure MissileConsts where
  MISSILE_GUIDED : String
  MISSILE_SMART : String
  MISSILE_NAVAL : String
  AIERROR_NONE : Int

/-- The power rank the constructor of lines 15-24 assigns. -/
def Missile.create.power (k : MissileConsts) (shipId : String) (power : Int) : Int :=
  if power < 0 then
    let m_power := 0
    let m_power := if shipId = k.MISSILE_GUIDED then 1 else m_power
    let m_power := if shipId = k.MISSILE_SMART then 2 else m_power
    if shipId = k.MISSILE_NAVAL then 3 else m_power
  else power

/-- The members as the constructor of lines 15-46 has set them when it calls
`Disarm()` (line 36). `armed` and `ownerIndex` stand for `m_armed` and
`m_ownerIndex`, which the constructor has not written at that point; the AI
command and the error code are written after the call. -/
def Missile.create.beforeDisarm (k : MissileConsts) (dflt : ShipType) (types : ShipTypes)
    (self : BodyPtr) (props : PropertyMap) (ownerIndex : Int) (armed : Bool) (shipId : String)
    (owner : Option BodyPtr) (power : Int) : Missile AICmd :=
  { self := self
    m_type := (ShipTypes.index dflt types shipId).2
    m_owner := owner
    m_ownerIndex := ownerIndex
    m_power := Missile.create.power k shipId power
    m_armed := armed
    m_curAICmd := none
    m_aiMessage := k.AIERROR_NONE
    Properties := props }

/-- The constructor `Missile::Missile(const ShipType::Id &, Body *, int)`
(lines 15-46): the type table after the call, the projectile and the property
signals sent. `self` is the object under construction and `props` its
properties as the base class left them. Mass, model and propulsion are left
out. -/
def Missile.create (k : MissileConsts) (dflt : ShipType) (types : ShipTypes) (self : BodyPtr)
    (props : PropertyMap) (ownerIndex : Int) (armed : Bool) (shipId : String)
    (owner : Option BodyPtr) (power : Int) : ShipTypes × Missile AICmd × List String :=
  ((ShipTypes.index dflt types shipId).1,
    { (Missile.create.beforeDisarm k dflt types self props ownerIndex armed shipId owner
          power : Missile AICmd).Disarm.1 with
      m_curAICmd := none
      m_aiMessage := k.AIERROR_NONE },
    (Missile.create.beforeDisarm k dflt types self props ownerIndex armed shipId owner
      power : Missile AICmd).Disarm.2)

/-! ## Floating-point arithmetic -/

/-- The integer nearest to `x`, the even one of the two when `x` lies halfway. -/
def roundHalfEven (x : ℚ) : ℤ :=
  if x - ⌊x⌋ < 1 / 2 then ⌊x⌋
  else if 1 / 2 < x - ⌊x⌋ then ⌊x⌋ + 1
  else if ⌊x⌋ % 2 = 0 then ⌊x⌋ else ⌊x⌋ + 1

/-- The value with `p` significant bits nearest to `x`, ties to even: the
rounding of a binary floating-point format of precision `p`. With
`e = Int.log 2 |x|` the binade of `x`, the representable values around `x` are
the multiples of `2 ^ (e - p + 1)`. The exponent range of the format is not
modelled: the quantities rounded here stay far from both ends of it. -/
def roundToPrecision (p : ℕ) (x : ℚ) : ℚ :=
  if x = 0 then 0
  else roundHalfEven (x / 2 ^ (Int.log 2 |x| - p + 1)) * 2 ^ (Int.log 2 |x| - p + 1)

/-- Rounding to `double`: 53 significant bits. Each arithmetic operation on
`double` operands yields the exact result rounded this way. -/
def toDouble (x : ℚ) : ℚ := roundToPrecision 53 x

/-- Rounding to `float`: 24 significant bits. This is the conversion a `double`
argument undergoes when it is passed to a `float` parameter. -/
def toFloat (x : ℚ) : ℚ := roundToPrecision 24 x

/-- The argument `kgDamage * (damageRadius - dist) / damageRadius` of line 188,
evaluated in `double` from left to right and received by the `float` parameter
`kgDamage` of `OnDamage` (line 166). -/
def Missile.Explode.damage (dist : ℚ) : ℚ :=
  toFloat (toDouble (toDouble (kgDamage * toDouble (damageRadius - dist)) / damageRadius))

/-- The expression `(body->GetPosition() - GetPosition()).Length()`. -/
def Missile.dist (ph : Physics) (sp : Space) (m : Missile AICmd) (body : BodyPtr) : ℚ :=
  ph.Length (sp.GetPosition body - sp.GetPosition m.self)

/-- The loop of `Explode` (lines 183-192) over the bodies the damage query
returned: the calls it issues. -/
def Missile.Explode.sweep (ph : Physics) (sp : Space) (m : Missile AICmd) :
    List BodyPtr → List Call
  | [] => []
  | body :: rest =>
    if sp.GetFrame body ≠ sp.GetFrame m.self then Missile.Explode.sweep ph sp m rest
    else if m.dist ph sp body < damageRadius then
      Call.OnDamage body m.m_owner (Missile.Explode.damage (m.dist ph sp body))
        :: ((if sp.IsShip body then [Call.onShipHit body m.m_owner] else [])
          ++ Missile.Explode.sweep ph sp m rest)
    else Missile.Explode.sweep ph sp m rest

/-- The member `Missile::Explode` (lines 174-195): the space after the call and
the calls issued. -/
def Missile.Explode (ph : Physics) (m : Missile AICmd) (sp : Space) : Space × List Call :=
  let sp1 := sp.KillBody m.self
  (sp1, Missile.Explode.sweep ph sp1 m (sp1.GetBodiesMaybeNear m.self damageRadius)
    ++ [Call.SfxAdd_TYPE_EXPLOSION m.self])

/-- The loop of `TimeStepUpdate` (lines 147-154): `true` when it reaches
`Explode(); break;`. -/
def Missile.TimeStepUpdate.scan (ph : Physics) (sp : Space) (m : Missile AICmd) :
    List BodyPtr → Bool
  | [] => false
  | body :: rest =>
    if body = m.self then Missile.TimeStepUpdate.scan ph sp m rest
    else if m.dist ph sp body < MISSILE_DETECTION_RADIUS then true
    else Missile.TimeStepUpdate.scan ph sp m rest

/-- The member `Missile::TimeStepUpdate` (lines 132-156). -/
def Missile.TimeStepUpdate (ph : Physics) (m : Missile AICmd) (timeStep : ℚ) (sp : Space) :
    Space × List Call :=
  let sp1 := ph.integrate m.self timeStep sp
  match m.m_owner with
  | none => m.Explode ph sp1
  | some _ =>
    if m.m_armed then
      if Missile.TimeStepUpdate.scan ph sp1 m
          (sp1.GetBodiesMaybeNear m.self MISSILE_DETECTION_RADIUS) then
        m.Explode ph sp1
      else (sp1, [])
    else (sp1, [])

/-- The member `Missile::OnCollision` (lines 158-164); the last component is
the returned flag. -/
def Missile.OnCollision (ph : Physics) (m : Missile AICmd) (o : Option BodyPtr) (flags : Nat)
    (relVel : ℚ) (sp : Space) : Space × List Call × Bool :=
  if ¬ sp.IsDead m.self then ((m.Explode ph sp).1, (m.Explode ph sp).2, true)
  else (sp, [], true)

/-- The member `Missile::OnDamage` (lines 166-172); the contact data, which is
not read, is left out. -/
def Missile.OnDamage (ph : Physics) (m : Missile AICmd) (attacker : Option BodyPtr)
    (kgDamage : ℚ) (sp : Space) : Space × List Call × Bool :=
  if ¬ sp.IsDead m.self then ((m.Explode ph sp).1, (m.Explode ph sp).2, true)
  else (sp, [], true)

/-- The member `Missile::ECMAttack` (lines 102-108). -/
def Missile.ECMAttack (ph : Physics) (m : Missile AICmd) (power_val : Int) (sp : Space) :
    Space × List Call :=
  if power_val > m.m_power then
    ((m.OnDamage ph none 1 sp).1, (m.OnDamage ph none 1 sp).2.1)
  else (sp, [])

/-! ## Serialized state -/

/-- A JSON value; `number` is an integer number, `number_float` a number
stored as floating point. -/
inductive Json where
  | null
  | boolean (b : Bool)
  | number (n : Int)
  | number_float (q : ℚ)
  | string (s : String)
  | array (items : List Json)
  | object (members : List (String × Json))

/-- The types of JSON values. -/
inductive JsonType where
  | null
  | boolean
  | number
  | string
  | array
  | object
deriving DecidableEq

/-- The JSON type of a value. -/
def Json.type : Json → JsonType
  | Json.null => JsonType.null
  | Json.boolean _ => JsonType.boolean
  | Json.number _ => JsonType.number
  | Json.number_float _ => JsonType.number
  | Json.string _ => JsonType.string
  | Json.array _ => JsonType.array
  | Json.object _ => JsonType.object

/-- The members of a JSON object. -/
abbrev JsonObject := List (String × Json)

/-- The value stored under `key`, when there is one. -/
def JsonObject.find (members : JsonObject) (key : String) : Option Json :=
  (List.find? (fun e => e.1 == key) members).map Prod.snd

/-- The assignment `obj[key] = value` on an object: the value replaces what
was stored under `key`. -/
def JsonObject.assign (members : JsonObject) (key : String) (value : Json) : JsonObject :=
  (key, value) :: members.filter (fun e => !(e.1 == key))

/-- What the code throws while restoring. -/
inductive Exn where
  /-- The exception `Json::type_error`. -/
  | type_error
  | SavedGameCorruptException
deriving DecidableEq

/-- The read `j[key]` on a non-const JSON value: the value found and `j` after
the call. On an object a missing key is first inserted with the value null, a
null `j` first becomes an empty object, any other `j` throws. -/
def Json.index (j : Json) (key : String) : Except Exn (Json × Json) :=
  match j with
  | Json.object members =>
    match JsonObject.find members key with
    | some v => .ok (v, Json.object members)
    | none => .ok (Json.null, Json.object (members ++ [(key, Json.null)]))
  | Json.null => .ok (Json.null, Json.object [(key, Json.null)])
  | _ => .error Exn.type_error

/-- The typed reads of the JSON library (its code is not among the embedded
files), one for each C++ type `Missile.cpp` converts a JSON value to:
`ShipType::Id`, `AIError`, `int` and `bool`. `none` stands for the
`Json::type_error` the conversion throws on a value it does not accept. -/
structure JsonConv where
  toId : Json → Option String
  toAIError : Json → Option Int
  toInt : Json → Option Int
  toBool : Json → Option Bool

/-- The typed reads that accept exactly the values of the JSON type named by
the persisted layout: a string for the type id, a number for the error code,
the owner index and the power, a boolean for the armed flag. -/
def JsonConv.strict : JsonConv where
  toId := fun j => match j with
    | Json.string s => some s
    | _ => none
  toAIError := fun j => match j with
    | Json.number n => some n
    | _ => none
  toInt := fun j => match j with
    | Json.number n => some n
    | _ => none
  toBool := fun j => match j with
    | Json.boolean b => some b
    | _ => none

/-- The `AICommand` members `Missile.cpp` calls (ShipAICmd.cpp is not among
the embedded files). `SaveToJson` adds the command to the members of the
object it is given, `LoadFromJson` returns the command found in a JSON value
(`none` for the null pointer) or throws. -/
structure AICommandOps (AICmd : Type) where
  OnDeleted : AICmd → Option BodyPtr → AICmd
  SaveToJson : Space → AICmd → JsonObject → JsonObject
  LoadFromJson : Json → Except Exn (Option AICmd)
  PostLoadFixup : Space → AICmd → AICmd

/-- The member `Missile::NotifyRemoved` (lines 197-204); the call of the base
class, which touches no member of the projectile, is left out. -/
def Missile.NotifyRemoved (ai : AICommandOps AICmd) (m : Missile AICmd)
    (removedBody : Option BodyPtr) : Missile AICmd :=
  let m1 := { m with m_curAICmd := m.m_curAICmd.map (fun c => ai.OnDeleted c removedBody) }
  if m1.m_owner = removedBody then { m1 with m_owner := none } else m1

/-- The object `missileObj` that `Missile::SaveToJson` builds (lines 77-85). -/
def Missile.SaveToJson.missileObj (ai : AICommandOps AICmd) (m : Missile AICmd) (space : Space) :
    JsonObject :=
  let missileObj : JsonObject := []
  let missileObj := match m.m_curAICmd with
    | some c => ai.SaveToJson space c missileObj
    | none => missileObj
  let missileObj := missileObj.assign "ai_message" (Json.number m.m_aiMessage)
  let missileObj := missileObj.assign "index_for_body" (Json.number (space.GetIndexForBody m.m_owner))
  let missileObj := missileObj.assign "power" (Json.number m.m_power)
  let missileObj := missileObj.assign "armed" (Json.boolean m.m_armed)
  missileObj.assign "ship_type_id" (Json.string m.m_type.id)

/-- The member `Missile::SaveToJson` (lines 73-88). `jsonObj` holds the members
the base class and the propulsion wrote (lines 75-76). -/
def Missile.SaveToJson (ai : AICommandOps AICmd) (m : Missile AICmd) (jsonObj : JsonObject)
    (space : Space) : JsonObject :=
  jsonObj.assign "missile" (Json.object (Missile.SaveToJson.missileObj ai m space))

/-- Raise `Json::type_error` when a typed read rejects the value. -/
def typed {α : Type} (r : Option α) : Except Exn α :=
  match r with
  | some a => .ok a
  | none => .error Exn.type_error

/-- Lines 59-65 of the restoring constructor, after the type descriptor `ty`
was resolved: the projectile restored from `missileObj`. `m_owner` is not
written by the constructor (it is null here until `PostLoadFixup`). -/
def Missile.fromJson.fields (conv : JsonConv) (ai : AICommandOps AICmd) (self : BodyPtr)
    (props : PropertyMap) (ty : ShipType) (missileObj : Json) : Except Exn (Missile AICmd) := do
  let m_curAICmd ← ai.LoadFromJson missileObj
  let (v, missileObj) ← missileObj.index "ai_message"
  let m_aiMessage ← typed (conv.toAIError v)
  let (v, missileObj) ← missileObj.index "index_for_body"
  let m_ownerIndex ← typed (conv.toInt v)
  let (v, missileObj) ← missileObj.index "power"
  let m_power ← typed (conv.toInt v)
  let (v, _) ← missileObj.index "armed"
  let m_armed ← typed (conv.toBool v)
  pure { self := self, m_type := ty, m_owner := none, m_ownerIndex := m_ownerIndex,
         m_power := m_power, m_armed := m_armed, m_curAICmd := m_curAICmd,
         m_aiMessage := m_aiMessage, Properties := props }

/-- The handler `catch (Json::type_error &) { throw SavedGameCorruptException(); }`. -/
def catchTypeError {α : Type} (r : Except Exn α) : Except Exn α :=
  match r with
  | .error Exn.type_error => .error Exn.SavedGameCorruptException
  | r => r

/-- The constructor `Missile::Missile(const Json &, Space *)` from line 53 on:
`missileObj` is the value of `jsonObj["missile"]`, `self` the object under
construction, `props` the properties the base class restored (lines 49-52 are
outside `Missile.cpp`). The result is the type table after the call and the
projectile or the exception thrown. -/
def Missile.fromJson (conv : JsonConv) (ai : AICommandOps AICmd) (dflt : ShipType)
    (types : ShipTypes) (self : BodyPtr) (props : PropertyMap) (missileObj : Json) :
    ShipTypes × Except Exn (Missile AICmd) :=
  match missileObj.index "ship_type_id" with
  | .error e => (types, catchTypeError (.error e))
  | .ok (v, missileObj) =>
    match conv.toId v with
    | none => (types, catchTypeError (.error Exn.type_error))
    | some id =>
      ((ShipTypes.index dflt types id).1,
        catchTypeError
          (Missile.fromJson.fields conv ai self props (ShipTypes.index dflt types id).2 missileObj))

/-- The member `Missile::PostLoadFixup` (lines 90-95). -/
def Missile.PostLoadFixup (ai : AICommandOps AICmd) (m : Missile AICmd) (space : Space) :
    Missile AICmd :=
  { m with
    m_owner := space.GetBodyByIndex m.m_ownerIndex
    m_curAICmd := m.m_curAICmd.map (fun c => ai.PostLoadFixup space c) }

/-- The value a read of `key` sees on an object: the member stored under
`key`, null when there is none. -/
def JsonObject.get (members : JsonObject) (key : String) : Json :=
  (JsonObject.find members key).getD Json.null

/-- The member `key` is absent from the object, or the typed read `reads`
throws on the value it holds. -/
def absentOrRejected {α : Type} (members : JsonObject) (key : String)
    (reads : Json → Option α) : Prop :=
  match JsonObject.find members key with
  | none => True
  | some v => reads v = none

/-- The member `key` is absent from the object, or the value it holds is of a
JSON type outside `allowed`. -/
def absentOrTypedOutside (members : JsonObject) (key : String) (allowed : List JsonType) :
    Prop :=
  match JsonObject.find members key with
  | none => True
  | some v => v.type ∉ allowed

/-- The conversion of a floating-point number to an integer type: the
fractional part is dropped. -/
def truncate (q : ℚ) : Int :=
  if 0 ≤ q then ⌊q⌋ else ⌈q⌉

/-- The typed reads of the JSON library the source is built with
(`nlohmann::json`; its code is not among the embedded files), as they behave on
the conversions of lines 56-65. A `ShipType::Id` is read from a string only and
a `bool` from a boolean only. The enumeration `AIError` is read from a number,
integer or floating point. An `int` is read from a number and also from a
boolean, `true` giving 1 and `false` 0. Every other value throws
`Json::type_error`. Integers are read as they are; values outside the range of
`int` are not modelled. -/
def JsonConv.library : JsonConv where
  toId := fun j =>
    match j with
    | Json.string s => some s
    | _ => none
  toAIError := fun j =>
    match j with
    | Json.number n => some n
    | Json.number_float q => some (truncate q)
    | _ => none
  toInt := fun j =>
    match j with
    | Json.number n => some n
    | Json.number_float q => some (truncate q)
    | Json.boolean b => some (if b then 1 else 0)
    | _ => none
  toBool := fun j =>
    match j with
    | Json.boolean b => some b
    | _ => none

/-- The keys `Missile::SaveToJson` assigns in `missileObj`. -/
def missileKeys : List String :=
  ["ai_message", "index_for_body", "power", "armed", "ship_type_id"]

/-! ## The renderer's texture cache -/

/-- Identity of a texture (the value of a `Texture *`). -/
abbrev TexturePtr := Nat

/-- The `TextureCacheKey` of the source: resource category and name. -/
abbrev TextureCacheKey := String × String

/-- The `TextureCacheMap` of the source. Each entry holds a heap-allocated
`RefCountedPtr<Texture>`, represented by the texture pointer it wraps. -/
abbrev TextureCacheMap := List (TextureCacheKey × Option TexturePtr)

/-- What happens to texture references: `new RefCountedPtr<Texture>(t)` takes a
reference on `t`, `delete` of such a handle releases it. -/
inductive RefEvent where
  | acquire (t : Option TexturePtr)
  | release (t : Option TexturePtr)
deriving DecidableEq

/-- The references a trace releases. -/
def releasedBy : List RefEvent → List (Option TexturePtr)
  | [] => []
  | RefEvent.release t :: es => t :: releasedBy es
  | _ :: es => releasedBy es

/-- The call `m_textures.find(key)`: the entry found, if any. -/
def TextureCacheMap.find (m_textures : TextureCacheMap) (key : TextureCacheKey) :
    Option (TextureCacheKey × Option TexturePtr) :=
  List.find? (fun e => e.1 == key) m_textures

/-- The call `m_textures.insert(std::make_pair(key, handle))`: nothing is
stored when the map already holds an entry for `key`. -/
def TextureCacheMap.insert (m_textures : TextureCacheMap) (key : TextureCacheKey)
    (handle : Option TexturePtr) : TextureCacheMap :=
  match m_textures.find key with
  | some _ => m_textures
  | none => m_textures ++ [(key, handle)]

/-- A `std::map` holds at most one entry for a key. -/
def TextureCacheMap.UniqueKeys (m_textures : TextureCacheMap) : Prop :=
  (m_textures.map Prod.fst).Nodup

/-- The number of entries stored under `key`. -/
def TextureCacheMap.entriesFor (m_textures : TextureCacheMap) (key : TextureCacheKey) : Nat :=
  (m_textures.filter (fun e => e.1 == key)).length

/-- The member `Renderer::GetCachedTexture` (Renderer.cpp lines 23-28). -/
def GetCachedTexture (m_textures : TextureCacheMap) (type name : String) : Option TexturePtr :=
  match m_textures.find (type, name) with
  | none => none
  | some i => i.2

/-- The member `Renderer::RemoveCachedTexture` (Renderer.cpp lines 36-42): the
cache after the call and what happened to references. -/
def RemoveCachedTexture (m_textures : TextureCacheMap) (type name : String) :
    TextureCacheMap × List RefEvent :=
  match m_textures.find (type, name) with
  | none => (m_textures, [])
  | some i => (m_textures.eraseP (fun e => e.1 == (type, name)), [RefEvent.release i.2])

/-- The member `Renderer::AddCachedTexture` (Renderer.cpp lines 30-34). -/
def AddCachedTexture (m_textures : TextureCacheMap) (type name : String)
    (texture : Option TexturePtr) : TextureCacheMap × List RefEvent :=
  let r := RemoveCachedTexture m_textures type name
  (r.1.insert (type, name) texture, r.2 ++ [RefEvent.acquire texture])

/-- The member `Renderer::RemoveAllCachedTextures` (Renderer.cpp lines 44-49). -/
def RemoveAllCachedTextures (m_textures : TextureCacheMap) : TextureCacheMap × List RefEvent :=
  ([], m_textures.map (fun e => RefEvent.release e.2))

/-! ## The matrix ticket -/

/-- The enumeration `MatrixMode` (Renderer.h lines 36-39). -/
inductive MatrixMode where
  | MODELVIEW
  | PROJECTION
deriving DecidableEq

/-- A matrix stack: its top and the matrices below, nearest first. -/
structure MatrixStack (Mat : Type) where
  top : Mat
  below : List Mat

/-- Modelled from the spec: the matrix state behind the pure virtual
`SetMatrixMode`, `PushMatrix`, `PopMatrix`, `LoadIdentity`, `LoadMatrix`,
`Translate` and `Scale` (no backend is among the embedded files): the active
matrix mode and one stack for each mode. -/
structure MatrixState (Mat : Type) where
  m_matrixMode : MatrixMode
  stack : MatrixMode → MatrixStack Mat

/-- The matrix arithmetic the mutators use. -/
structure MatrixArith (Mat : Type) where
  Identity : Mat
  Translate : ℚ → ℚ → ℚ → Mat → Mat
  Scale : ℚ → ℚ → ℚ → Mat → Mat

variable {Mat : Type}

/-- The active matrix: the top of the stack of the active mode. -/
def MatrixState.active (r : MatrixState Mat) : Mat :=
  (r.stack r.m_matrixMode).top

/-- Replace the stack of one mode. -/
def MatrixState.setStack (r : MatrixState Mat) (mm : MatrixMode) (s : MatrixStack Mat) :
    MatrixState Mat :=
  { r with stack := fun mm' => if mm' = mm then s else r.stack mm' }

/-- Modelled from the spec: `SetMatrixMode` selects the stack later calls act on. -/
def MatrixState.SetMatrixMode (r : MatrixState Mat) (mm : MatrixMode) : MatrixState Mat :=
  { r with m_matrixMode := mm }

/-- Modelled from the spec: `PushMatrix` saves a copy of the active matrix on
the stack of the active mode. -/
def MatrixState.PushMatrix (r : MatrixState Mat) : MatrixState Mat :=
  r.setStack r.m_matrixMode
    { top := (r.stack r.m_matrixMode).top
      below := (r.stack r.m_matrixMode).top :: (r.stack r.m_matrixMode).below }

/-- Modelled from the spec: `PopMatrix` drops the active matrix and makes the
last saved one active; there is no result when nothing was saved. -/
def MatrixState.PopMatrix (r : MatrixState Mat) : Option (MatrixState Mat) :=
  match (r.stack r.m_matrixMode).below with
  | [] => none
  | t :: rest => some (r.setStack r.m_matrixMode { top := t, below := rest })

/-- Replace the active matrix. -/
def MatrixState.setActive (r : MatrixState Mat) (t : Mat) : MatrixState Mat :=
  r.setStack r.m_matrixMode { top := t, below := (r.stack r.m_matrixMode).below }

/-- A call on the matrix interface of the renderer. -/
inductive MatrixOp (Mat : Type) where
  | SetMatrixMode (mm : MatrixMode)
  | PushMatrix
  | PopMatrix
  | LoadIdentity
  | LoadMatrix (m : Mat)
  | Translate (x y z : ℚ)
  | Scale (x y z : ℚ)

/-- Modelled from the spec: the effect of one call; the four mutators replace
the active matrix. -/
def MatrixOp.apply (ar : MatrixArith Mat) (r : MatrixState Mat) :
    MatrixOp Mat → Option (MatrixState Mat)
  | MatrixOp.SetMatrixMode mm => some (r.SetMatrixMode mm)
  | MatrixOp.PushMatrix => some r.PushMatrix
  | MatrixOp.PopMatrix => r.PopMatrix
  | MatrixOp.LoadIdentity => some (r.setActive ar.Identity)
  | MatrixOp.LoadMatrix m => some (r.setActive m)
  | MatrixOp.Translate x y z => some (r.setActive (ar.Translate x y z r.active))
  | MatrixOp.Scale x y z => some (r.setActive (ar.Scale x y z r.active))

/-- A sequence of calls, in order; no result when a pop finds nothing saved. -/
def runOps (ar : MatrixArith Mat) : List (MatrixOp Mat) → MatrixState Mat →
    Option (MatrixState Mat)
  | [], r => some r
  | op :: ops, r =>
    match op.apply ar r with
    | none => none
    | some r' => runOps ar ops r'

/-- Pushes and pops are balanced from mode `mode` on, `depth` giving for each
mode the pushes still open: no pop without an open push of the mode it acts
on, and no push left open at the end. -/
def balancedFrom : MatrixMode → (MatrixMode → Nat) → List (MatrixOp Mat) → Bool
  | _, depth, [] => depth MatrixMode.MODELVIEW == 0 && depth MatrixMode.PROJECTION == 0
  | _, depth, MatrixOp.SetMatrixMode mm :: ops => balancedFrom mm depth ops
  | mode, depth, MatrixOp.PushMatrix :: ops =>
    balancedFrom mode (fun mm => if mm = mode then depth mm + 1 else depth mm) ops
  | mode, depth, MatrixOp.PopMatrix :: ops =>
    depth mode != 0 &&
      balancedFrom mode (fun mm => if mm = mode then depth mm - 1 else depth mm) ops
  | mode, depth, _ :: ops => balancedFrom mode depth ops

/-- The constructor of `MatrixTicket` (Renderer.h lines 175-181) on the
renderer's matrix state. -/
def MatrixTicket.acquire (r : MatrixState Mat) (m : MatrixMode) : MatrixState Mat :=
  (r.SetMatrixMode m).PushMatrix

/-- The destructor of `MatrixTicket` (Renderer.h lines 182-186). -/
def MatrixTicket.release (r : MatrixState Mat) (m : MatrixMode) : Option (MatrixState Mat) :=
  (r.SetMatrixMode m).PopMatrix

/-- A ticket's life: acquire, the calls made while it is alive, release. -/
def MatrixTicket.scope (ar : MatrixArith Mat) (r : MatrixState Mat) (m : MatrixMode)
    (ops : List (MatrixOp Mat)) : Option (MatrixState Mat) :=
  match runOps ar ops (MatrixTicket.acquire r m) with
  | none => none
  | some r' => MatrixTicket.release r' m

/-! ## A concrete scene, used to evaluate the definitions -/

/-- A length that agrees with the Euclidean one on vectors along a single
axis, which is where the bodies of the example scene lie. -/
def axisLength (v : vector3d) : ℚ := |v.x| + |v.y| + |v.z|

/-- Physics of the example: bodies at rest. -/
def restPhysics : Physics where
  Length := axisLength
  integrate := fun _ _ sp => sp

/-- Example scene on the x axis: the projectile 0 at the origin, its owner 1
at 500, a ship 2 at 50, a ship 3 at 10 in another frame, a rock 4 at exactly
100, a rock 5 at exactly 200. The query returns every body but the owner. -/
def sceneSpace : Space where
  GetPosition := fun b =>
    match b with
    | 0 => ⟨0, 0, 0⟩
    | 1 => ⟨500, 0, 0⟩
    | 2 => ⟨50, 0, 0⟩
    | 3 => ⟨10, 0, 0⟩
    | 4 => ⟨100, 0, 0⟩
    | _ => ⟨200, 0, 0⟩
  GetFrame := fun b => if b = 3 then 1 else 0
  IsShip := fun b => b = 1 || b = 2 || b = 3
  IsDead := fun _ => false
  GetBodiesMaybeNear := fun _ _ => [0, 2, 3, 4, 5]
  GetIndexForBody := fun b =>
    match b with
    | none => 0
    | some b => (b : Int) + 1
  GetBodyByIndex := fun i => if i ≤ 0 then none else some (i - 1).toNat

/-- The same scene with only the projectile and the rock at exactly 100 in
reach of the query. -/
def boundarySpace : Space :=
  { sceneSpace with GetBodiesMaybeNear := fun _ _ => [0, 4] }

/-- The scene with a rock 6 at distance `2^-20` from the projectile, alone in
reach of the query. -/
def grazingSpace : Space :=
  { sceneSpace with
    GetPosition := fun b => if b = 6 then ⟨1 / 1048576, 0, 0⟩ else sceneSpace.GetPosition b
    GetBodiesMaybeNear := fun _ _ => [6] }

/-- An AI command of the example: pursuit of a target body, stored by index. -/
structure PursuitCmd where
  target : Option BodyPtr
  targetIndex : Int
deriving DecidableEq

/-- The AI command operations of the example. -/
def pursuitOps : AICommandOps PursuitCmd where
  OnDeleted := fun c removed => if c.target = removed then { c with target := none } else c
  SaveToJson := fun space c obj =>
    JsonObject.assign obj "ai_command" (Json.number (space.GetIndexForBody c.target))
  LoadFromJson := fun j =>
    match j with
    | Json.object members =>
      match JsonObject.find members "ai_command" with
      | none => .ok none
      | some (Json.number n) => .ok (some { target := none, targetIndex := n })
      | some _ => .error Exn.SavedGameCorruptException
    | _ => .ok none
  PostLoadFixup := fun space c => { c with target := space.GetBodyByIndex c.targetIndex }

/-- The descriptor of the guided tier in the example table. -/
def guidedType : ShipType := { id := "missile_guided", modelName := "missile", hullMass := 1 }

/-- A default-constructed descriptor. -/
def defaultType : ShipType := { id := "", modelName := "", hullMass := 0 }

/-- Example type table. -/
def sceneTypes : ShipTypes := [("missile_guided", guidedType)]

/-- The projectile of the example scene: body 0, owned by body 1, armed,
pursuing body 2. -/
def sceneMissile : Missile PursuitCmd where
  self := 0
  m_type := guidedType
  m_owner := some 1
  m_ownerIndex := 0
  m_power := 1
  m_armed := true
  m_curAICmd := some { target := some 2, targetIndex := 3 }
  m_aiMessage := 0
  Properties := fun k => if k = "isArmed" then some (PropertyValue.boolean true) else none

/-- A saved `missile` object whose `armed` member was removed. -/
def disarmedFieldRemoved : JsonObject :=
  [("ship_type_id", Json.string "missile_guided"), ("power", Json.number 1),
   ("index_for_body", Json.number 2), ("ai_message", Json.number 0)]

/-- A saved `missile` object, well typed, whose `ship_type_id` names no entry
of the example table. -/
def unknownTypeObj : JsonObject :=
  [("ship_type_id", Json.string "missile_unknown"), ("armed", Json.boolean true),
   ("power", Json.number 1), ("index_for_body", Json.number 2), ("ai_message", Json.number 0)]

/-- Example cache: two textures under two keys. -/
def sceneCache : TextureCacheMap :=
  [(("ui", "icon"), some 1), (("model", "hull"), some 2)]

/-- Arithmetic of one-by-one matrices, for the examples. -/
def scalarArith : MatrixArith ℚ where
  Identity := 1
  Translate := fun x _ _ t => t + x
  Scale := fun x _ _ t => t * x

/-- Example matrix state: projection mode active, modelview top 1 over a saved
5, projection top 2. -/
def sceneMatrices : MatrixState ℚ where
  m_matrixMode := MatrixMode.PROJECTION
  stack := fun mm =>
    match mm with
    | MatrixMode.MODELVIEW => { top := 1, below := [5] }
    | MatrixMode.PROJECTION => { top := 2, below := [] }

/-- Example calls under a modelview ticket: a translation, then a nested
push, scale and pop. -/
def sceneOps : List (MatrixOp ℚ) :=
  [MatrixOp.Translate 3 0 0, MatrixOp.PushMatrix, MatrixOp.Scale 2 2 2, MatrixOp.PopMatrix]

/-- Example constants: three distinct tier ids, error code 0 for no error. -/
def sceneConsts : MissileConsts where
  MISSILE_GUIDED := "missile_guided"
  MISSILE_SMART := "missile_smart"
  MISSILE_NAVAL := "missile_naval"
  AIERROR_NONE := 0

/-- The example scene after the projectile detonated on a collision with the
ship 2. -/
def collidedSpace : Space :=
  (sceneMissile.OnCollision restPhysics (some 2) 0 0 sceneSpace).1

/-- A saved `missile` object that holds a boolean under `power`. -/
def booleanPowerObj : JsonObject :=
  [("ship_type_id", Json.string "missile_guided"), ("armed", Json.boolean true),
   ("power", Json.boolean true), ("index_for_body", Json.number 2),
   ("ai_message", Json.number 0)]

/-! ## Theorems -/


@[simp] theorem vector3d.sub_x (a b : vector3d) : (a - b).x = a.x - b.x := rfl

@[simp] theorem vector3d.sub_y (a b : vector3d) : (a - b).y = a.y - b.y := rfl

@[simp] theorem vector3d.sub_z (a b : vector3d) : (a - b).z = a.z - b.z := rfl
/-! ### Proximity trigger -/

theorem scan_eq_true_iff (ph : Physics) (sp : Space) (m : Missile AICmd) (l : List BodyPtr) :
    Missile.TimeStepUpdate.scan ph sp m l = true ↔
      ∃ body ∈ l, body ≠ m.self ∧ m.dist ph sp body < MISSILE_DETECTION_RADIUS := by
  induction l with
  | nil => simp [Missile.TimeStepUpdate.scan]
  | cons b rest ih =>
    unfold Missile.TimeStepUpdate.scan
    by_cases hb : b = m.self
    · simp only [hb, if_true, ih, List.mem_cons]
      constructor
      · rintro ⟨body, hmem, hne, hlt⟩
        exact ⟨body, Or.inr hmem, hne, hlt⟩
      · rintro ⟨body, hmem | hmem, hne, hlt⟩
        · exact absurd hmem hne
        · exact ⟨body, hmem, hne, hlt⟩
    · by_cases hd : m.dist ph sp b < MISSILE_DETECTION_RADIUS
      · simp only [hb, if_false, hd, if_true, List.mem_cons, true_iff]
        exact ⟨b, Or.inl rfl, hb, hd⟩
      · simp only [hb, if_false, hd, ih, List.mem_cons]
        constructor
        · rintro ⟨body, hmem, hne, hlt⟩
          exact ⟨body, Or.inr hmem, hne, hlt⟩
        · rintro ⟨body, hmem | hmem, hne, hlt⟩
          · subst hmem
            exact absurd hlt hd
          · exact ⟨body, hmem, hne, hlt⟩

theorem Explode_calls_ne_nil (ph : Physics) (m : Missile AICmd) (sp : Space) :
    (m.Explode ph sp).2 ≠ [] := by
  simp [Missile.Explode]

theorem Explode_ne_quiet (ph : Physics) (m : Missile AICmd) (sp sp' : Space) :
    m.Explode ph sp ≠ (sp', []) := by
  intro h
  exact Explode_calls_ne_nil ph m sp (by rw [h])

/-- C1. With an owner and armed, one `TimeStepUpdate` detonates (its outcome is
that of `Explode` on the integrated space) exactly when the 100-unit query
returns a body other than the projectile itself at distance strictly below 100.
When every body returned is the projectile itself or at distance 100 or more,
nothing is called and the space is the integrated one. -/
theorem TimeStepUpdate_armed_detonates_iff (ph : Physics) (m : Missile AICmd) (timeStep : ℚ)
    (sp : Space) (owner : BodyPtr) (ho : m.m_owner = some owner) (ha : m.m_armed = true) :
    (m.TimeStepUpdate ph timeStep sp = m.Explode ph (ph.integrate m.self timeStep sp) ↔
      ∃ body ∈ (ph.integrate m.self timeStep sp).GetBodiesMaybeNear m.self 100,
        body ≠ m.self ∧
        ph.Length ((ph.integrate m.self timeStep sp).GetPosition body
          - (ph.integrate m.self timeStep sp).GetPosition m.self) < 100) ∧
    ((∀ body ∈ (ph.integrate m.self timeStep sp).GetBodiesMaybeNear m.self 100,
        body = m.self ∨
        100 ≤ ph.Length ((ph.integrate m.self timeStep sp).GetPosition body
          - (ph.integrate m.self timeStep sp).GetPosition m.self)) →
      m.TimeStepUpdate ph timeStep sp = (ph.integrate m.self timeStep sp, [])) := by
  have key := scan_eq_true_iff ph (ph.integrate m.self timeStep sp) m
    ((ph.integrate m.self timeStep sp).GetBodiesMaybeNear m.self MISSILE_DETECTION_RADIUS)
  simp only [Missile.dist, MISSILE_DETECTION_RADIUS] at key
  cases hs : Missile.TimeStepUpdate.scan ph (ph.integrate m.self timeStep sp) m
      ((ph.integrate m.self timeStep sp).GetBodiesMaybeNear m.self MISSILE_DETECTION_RADIUS) with
  | true =>
    have hT : m.TimeStepUpdate ph timeStep sp = m.Explode ph (ph.integrate m.self timeStep sp) := by
      simp only [Missile.TimeStepUpdate, ho, ha, if_true, hs]
    simp only [MISSILE_DETECTION_RADIUS] at hs
    refine ⟨⟨fun _ => key.mp hs, fun _ => hT⟩, fun hall => ?_⟩
    obtain ⟨body, hmem, hne, hlt⟩ := key.mp hs
    rcases hall body hmem with h | h
    · exact absurd h hne
    · exact absurd hlt (not_lt.mpr h)
  | false =>
    have hT : m.TimeStepUpdate ph timeStep sp = (ph.integrate m.self timeStep sp, []) := by
      simp only [Missile.TimeStepUpdate, ho, ha, if_true, hs]
      rfl
    refine ⟨⟨fun h => ?_, fun h => ?_⟩, fun _ => hT⟩
    · rw [hT] at h
      exact absurd h.symm (Explode_ne_quiet ph m _ _)
    · have hs' := key.mpr h
      simp only [MISSILE_DETECTION_RADIUS] at hs
      rw [hs] at hs'
      exact absurd hs' (by decide)

/-! ### Rounding -/

theorem roundHalfEven_cases (x : ℚ) : roundHalfEven x = ⌊x⌋ ∨ roundHalfEven x = ⌊x⌋ + 1 := by
  unfold roundHalfEven
  split_ifs <;> simp

theorem floor_le_roundHalfEven (x : ℚ) : ⌊x⌋ ≤ roundHalfEven x := by
  rcases roundHalfEven_cases x with h | h
  · rw [h]
  · rw [h]
    omega

theorem roundHalfEven_le (x : ℚ) : roundHalfEven x ≤ ⌊x⌋ + 1 := by
  rcases roundHalfEven_cases x with h | h
  · rw [h]
    omega
  · rw [h]

theorem roundHalfEven_intCast (n : ℤ) : roundHalfEven (n : ℚ) = n := by
  unfold roundHalfEven
  simp

theorem roundHalfEven_mono {x y : ℚ} (h : x ≤ y) : roundHalfEven x ≤ roundHalfEven y := by
  have hf : ⌊x⌋ ≤ ⌊y⌋ := Int.floor_mono h
  rcases lt_or_eq_of_le hf with hlt | heq
  · calc roundHalfEven x ≤ ⌊x⌋ + 1 := roundHalfEven_le x
      _ ≤ ⌊y⌋ := hlt
      _ ≤ roundHalfEven y := floor_le_roundHalfEven y
  · unfold roundHalfEven
    rw [← heq]
    have hxy : x - ⌊x⌋ ≤ y - ⌊x⌋ := by linarith
    split_ifs <;> first | omega | linarith

theorem le_roundHalfEven {n : ℤ} {x : ℚ} (h : (n : ℚ) ≤ x) : n ≤ roundHalfEven x := by
  have := roundHalfEven_mono h
  rwa [roundHalfEven_intCast] at this

theorem roundHalfEven_le_of_le {n : ℤ} {x : ℚ} (h : x ≤ (n : ℚ)) : roundHalfEven x ≤ n := by
  have := roundHalfEven_mono h
  rwa [roundHalfEven_intCast] at this

theorem roundToPrecision_zero (p : ℕ) : roundToPrecision p 0 = 0 := by
  simp [roundToPrecision]

/-- The scaled value of a positive `x` lies between `2^(p-1)` and `2^p`. -/
theorem scaled_bounds (p : ℕ) (hp : 1 ≤ p) {x : ℚ} (hx : 0 < x) :
    (((2 ^ (p - 1) : ℕ) : ℤ) : ℚ) ≤ x / 2 ^ (Int.log 2 x - p + 1) ∧
      x / 2 ^ (Int.log 2 x - p + 1) ≤ (((2 ^ p : ℕ) : ℤ) : ℚ) := by
  have h1 : (2 : ℚ) ^ Int.log 2 x ≤ x := by
    have := Int.zpow_log_le_self (b := 2) (by norm_num) hx
    simpa using this
  have h2 : x < (2 : ℚ) ^ (Int.log 2 x + 1) := by
    have := Int.lt_zpow_succ_log_self (b := 2) (by norm_num) x
    simpa using this
  have hu : (0 : ℚ) < 2 ^ (Int.log 2 x - p + 1) := by positivity
  have e1 : (((2 ^ (p - 1) : ℕ) : ℤ) : ℚ) * 2 ^ (Int.log 2 x - p + 1) = 2 ^ Int.log 2 x := by
    push_cast
    rw [← zpow_natCast, ← zpow_add₀ (by norm_num : (2 : ℚ) ≠ 0)]
    congr 1
    have : ((p - 1 : ℕ) : ℤ) = (p : ℤ) - 1 := by omega
    rw [this]
    ring
  have e2 : (((2 ^ p : ℕ) : ℤ) : ℚ) * 2 ^ (Int.log 2 x - p + 1) = 2 ^ (Int.log 2 x + 1) := by
    push_cast
    rw [← zpow_natCast, ← zpow_add₀ (by norm_num : (2 : ℚ) ≠ 0)]
    congr 1
    ring
  constructor
  · rw [le_div_iff₀ hu, e1]
    exact h1
  · rw [div_le_iff₀ hu, e2]
    exact h2.le

theorem roundToPrecision_bounds (p : ℕ) (hp : 1 ≤ p) {x : ℚ} (hx : 0 < x) :
    (2 : ℚ) ^ Int.log 2 x ≤ roundToPrecision p x ∧
      roundToPrecision p x ≤ (2 : ℚ) ^ (Int.log 2 x + 1) := by
  obtain ⟨b1, b2⟩ := scaled_bounds p hp hx
  have hu : (0 : ℚ) < 2 ^ (Int.log 2 x - p + 1) := by positivity
  have e1 : (((2 ^ (p - 1) : ℕ) : ℤ) : ℚ) * 2 ^ (Int.log 2 x - p + 1) = 2 ^ Int.log 2 x := by
    push_cast
    rw [← zpow_natCast, ← zpow_add₀ (by norm_num : (2 : ℚ) ≠ 0)]
    congr 1
    have : ((p - 1 : ℕ) : ℤ) = (p : ℤ) - 1 := by omega
    rw [this]
    ring
  have e2 : (((2 ^ p : ℕ) : ℤ) : ℚ) * 2 ^ (Int.log 2 x - p + 1) = 2 ^ (Int.log 2 x + 1) := by
    push_cast
    rw [← zpow_natCast, ← zpow_add₀ (by norm_num : (2 : ℚ) ≠ 0)]
    congr 1
    ring
  have hR : roundToPrecision p x
      = roundHalfEven (x / 2 ^ (Int.log 2 x - p + 1)) * 2 ^ (Int.log 2 x - p + 1) := by
    simp [roundToPrecision, hx.ne', abs_of_pos hx]
  rw [hR]
  constructor
  · rw [← e1]
    exact mul_le_mul_of_nonneg_right (by exact_mod_cast le_roundHalfEven b1) hu.le
  · rw [← e2]
    exact mul_le_mul_of_nonneg_right (by exact_mod_cast roundHalfEven_le_of_le b2) hu.le

theorem roundToPrecision_pos (p : ℕ) (hp : 1 ≤ p) {x : ℚ} (hx : 0 < x) :
    0 < roundToPrecision p x :=
  lt_of_lt_of_le (by positivity) (roundToPrecision_bounds p hp hx).1

theorem roundToPrecision_mono (p : ℕ) (hp : 1 ≤ p) {x y : ℚ} (hx : 0 ≤ x) (hxy : x ≤ y) :
    roundToPrecision p x ≤ roundToPrecision p y := by
  rcases eq_or_lt_of_le hx with h0 | hpos
  · rw [← h0, roundToPrecision_zero]
    rcases eq_or_lt_of_le (hx.trans hxy) with hy0 | hypos
    · rw [← hy0, roundToPrecision_zero]
    · exact (roundToPrecision_pos p hp hypos).le
  · have hy : 0 < y := lt_of_lt_of_le hpos hxy
    have hlog : Int.log 2 x ≤ Int.log 2 y := Int.log_mono_right hpos hxy
    rcases eq_or_lt_of_le hlog with heq | hlt
    · have hRx : roundToPrecision p x
          = roundHalfEven (x / 2 ^ (Int.log 2 x - p + 1)) * 2 ^ (Int.log 2 x - p + 1) := by
        simp [roundToPrecision, hpos.ne', abs_of_pos hpos]
      have hRy : roundToPrecision p y
          = roundHalfEven (y / 2 ^ (Int.log 2 y - p + 1)) * 2 ^ (Int.log 2 y - p + 1) := by
        simp [roundToPrecision, hy.ne', abs_of_pos hy]
      rw [hRx, hRy, ← heq]
      have hu : (0 : ℚ) < 2 ^ (Int.log 2 x - p + 1) := by positivity
      refine mul_le_mul_of_nonneg_right ?_ hu.le
      exact_mod_cast roundHalfEven_mono (div_le_div_of_nonneg_right hxy hu.le)
    · calc roundToPrecision p x ≤ (2 : ℚ) ^ (Int.log 2 x + 1) :=
            (roundToPrecision_bounds p hp hpos).2
        _ ≤ (2 : ℚ) ^ Int.log 2 y := zpow_le_zpow_right₀ (by norm_num) (by omega)
        _ ≤ roundToPrecision p y := (roundToPrecision_bounds p hp hy).1

theorem log_two_eq {x : ℚ} {e : ℤ} (h1 : (2 : ℚ) ^ e ≤ x) (h2 : x < (2 : ℚ) ^ (e + 1)) :
    Int.log 2 x = e := by
  have hx : 0 < x := lt_of_lt_of_le (by positivity) h1
  apply le_antisymm
  · have := (Int.lt_zpow_iff_log_lt (b := 2) (by norm_num) hx (x := e + 1)).mp (by simpa using h2)
    omega
  · exact (Int.zpow_le_iff_le_log (b := 2) (by norm_num) hx).mp (by simpa using h1)

/-- A positive value whose scaled form is an integer is kept by the rounding. -/
theorem roundToPrecision_eq_self (p : ℕ) {x : ℚ} (e n : ℤ) (h1 : (2 : ℚ) ^ e ≤ x)
    (h2 : x < (2 : ℚ) ^ (e + 1)) (hn : x = n * 2 ^ (e - p + 1)) : roundToPrecision p x = x := by
  have hx : 0 < x := lt_of_lt_of_le (by positivity) h1
  have hu : (2 : ℚ) ^ (e - p + 1) ≠ 0 := by positivity
  have hs : x / 2 ^ (e - p + 1) = n := by
    rw [hn]
    field_simp
  simp only [roundToPrecision, hx.ne', abs_of_pos hx, log_two_eq h1 h2, if_false, hs,
    roundHalfEven_intCast]
  exact hn.symm


/-! ### Area damage -/

theorem damageCallsTo_append (body : BodyPtr) (l₁ l₂ : List Call) :
    damageCallsTo body (l₁ ++ l₂) = damageCallsTo body l₁ ++ damageCallsTo body l₂ := by
  induction l₁ with
  | nil => rfl
  | cons c cs ih =>
    cases c with
    | OnDamage b a k =>
      by_cases hb : b = body <;> simp [damageCallsTo, hb, ih]
    | onShipHit b a => simpa [damageCallsTo] using ih
    | SfxAdd_TYPE_EXPLOSION b => simpa [damageCallsTo] using ih

theorem shipHitsTo_append (body : BodyPtr) (l₁ l₂ : List Call) :
    shipHitsTo body (l₁ ++ l₂) = shipHitsTo body l₁ ++ shipHitsTo body l₂ := by
  induction l₁ with
  | nil => rfl
  | cons c cs ih =>
    cases c with
    | OnDamage b a k => simpa [shipHitsTo] using ih
    | onShipHit b a =>
      by_cases hb : b = body <;> simp [shipHitsTo, hb, ih]
    | SfxAdd_TYPE_EXPLOSION b => simpa [shipHitsTo] using ih

/-- The damage calls for `body` that one iteration of the sweep adds. -/
theorem damageCallsTo_sweep_cons (ph : Physics) (sp : Space) (m : Missile AICmd)
    (body b : BodyPtr) (rest : List BodyPtr) :
    damageCallsTo body (Missile.Explode.sweep ph sp m (b :: rest)) =
      (if b = body ∧ sp.GetFrame b = sp.GetFrame m.self ∧ m.dist ph sp b < damageRadius then
        [(m.m_owner, Missile.Explode.damage (m.dist ph sp b))] else [])
      ++ damageCallsTo body (Missile.Explode.sweep ph sp m rest) := by
  rw [Missile.Explode.sweep]
  by_cases hf : sp.GetFrame b = sp.GetFrame m.self
  · by_cases hd : m.dist ph sp b < damageRadius
    · by_cases hb : b = body
      · subst hb
        by_cases hs : sp.IsShip b = true <;>
          simp [hf, hd, hs, damageCallsTo]
      · by_cases hs : sp.IsShip b = true <;>
          simp [hf, hd, hb, hs, damageCallsTo]
    · simp [hf, hd]
  · simp [hf]

/-- The `onShipHit` events for `body` that one iteration of the sweep adds. -/
theorem shipHitsTo_sweep_cons (ph : Physics) (sp : Space) (m : Missile AICmd)
    (body b : BodyPtr) (rest : List BodyPtr) :
    shipHitsTo body (Missile.Explode.sweep ph sp m (b :: rest)) =
      (if b = body ∧ sp.GetFrame b = sp.GetFrame m.self ∧ m.dist ph sp b < damageRadius
          ∧ sp.IsShip b = true then [m.m_owner] else [])
      ++ shipHitsTo body (Missile.Explode.sweep ph sp m rest) := by
  rw [Missile.Explode.sweep]
  by_cases hf : sp.GetFrame b = sp.GetFrame m.self
  · by_cases hd : m.dist ph sp b < damageRadius
    · by_cases hb : b = body
      · subst hb
        by_cases hs : sp.IsShip b = true <;>
          simp [hf, hd, hs, shipHitsTo]
      · by_cases hs : sp.IsShip b = true <;>
          simp [hf, hd, hb, hs, shipHitsTo]
    · simp [hf, hd]
  · simp [hf]

theorem damageCallsTo_sweep_of_frame_ne (ph : Physics) (sp : Space) (m : Missile AICmd)
    (body : BodyPtr) (l : List BodyPtr) (h : sp.GetFrame body ≠ sp.GetFrame m.self) :
    damageCallsTo body (Missile.Explode.sweep ph sp m l) = [] := by
  induction l with
  | nil => rfl
  | cons b rest ih =>
    rw [damageCallsTo_sweep_cons, ih]
    by_cases hb : b = body
    · subst hb
      simp [h]
    · simp [hb]

theorem shipHitsTo_sweep_of_frame_ne (ph : Physics) (sp : Space) (m : Missile AICmd)
    (body : BodyPtr) (l : List BodyPtr) (h : sp.GetFrame body ≠ sp.GetFrame m.self) :
    shipHitsTo body (Missile.Explode.sweep ph sp m l) = [] := by
  induction l with
  | nil => rfl
  | cons b rest ih =>
    rw [shipHitsTo_sweep_cons, ih]
    by_cases hb : b = body
    · subst hb
      simp [h]
    · simp [hb]

/-- The damage calls the sweep issues for a body: one for each time the query
result lists it, when it is in the projectile's frame and within the radius. -/
theorem damageCallsTo_sweep_count (ph : Physics) (sp : Space) (m : Missile AICmd)
    (body : BodyPtr) (l : List BodyPtr) :
    damageCallsTo body (Missile.Explode.sweep ph sp m l) =
      if sp.GetFrame body = sp.GetFrame m.self ∧ m.dist ph sp body < damageRadius then
        List.replicate (List.count body l)
          (m.m_owner, Missile.Explode.damage (m.dist ph sp body))
      else [] := by
  induction l with
  | nil => simp [Missile.Explode.sweep, damageCallsTo]
  | cons b rest ih =>
    rw [damageCallsTo_sweep_cons, ih]
    by_cases hb : b = body
    · subst hb
      by_cases hc : sp.GetFrame b = sp.GetFrame m.self ∧ m.dist ph sp b < damageRadius
      · simp [hc, List.replicate_succ]
      · simp [hc]
    · have hne : ¬ (b = body ∧ sp.GetFrame b = sp.GetFrame m.self
          ∧ m.dist ph sp b < damageRadius) := fun h => hb h.1
      simp [hne, List.count_cons, hb]

theorem Explode_damageCallsTo (ph : Physics) (m : Missile AICmd) (sp : Space) (body : BodyPtr) :
    damageCallsTo body (m.Explode ph sp).2 =
      damageCallsTo body (Missile.Explode.sweep ph (sp.KillBody m.self) m
        (sp.GetBodiesMaybeNear m.self damageRadius)) := by
  simp [Missile.Explode, damageCallsTo_append, damageCallsTo, Space.KillBody]

theorem Explode_shipHitsTo (ph : Physics) (m : Missile AICmd) (sp : Space) (body : BodyPtr) :
    shipHitsTo body (m.Explode ph sp).2 =
      shipHitsTo body (Missile.Explode.sweep ph (sp.KillBody m.self) m
        (sp.GetBodiesMaybeNear m.self damageRadius)) := by
  simp [Missile.Explode, shipHitsTo_append, shipHitsTo, Space.KillBody]

theorem toDouble_200 : toDouble 200 = 200 :=
  roundToPrecision_eq_self 53 7 (25 * 2 ^ 48) (by norm_num) (by norm_num) (by norm_num)

theorem toDouble_2000000 : toDouble 2000000 = 2000000 :=
  roundToPrecision_eq_self 53 20 (15625 * 2 ^ 39) (by norm_num) (by norm_num) (by norm_num)

theorem toDouble_10000 : toDouble 10000 = 10000 :=
  roundToPrecision_eq_self 53 13 (625 * 2 ^ 43) (by norm_num) (by norm_num) (by norm_num)

theorem toFloat_10000 : toFloat 10000 = 10000 :=
  roundToPrecision_eq_self 24 13 (625 * 2 ^ 14) (by norm_num) (by norm_num) (by norm_num)

/-- The amount of line 188 at distance 0 is the full 10000. -/
theorem damage_zero : Missile.Explode.damage 0 = 10000 := by
  have h1 : (10000 : ℚ) * 200 = 2000000 := by norm_num
  have h2 : (2000000 : ℚ) / 200 = 10000 := by norm_num
  simp only [Missile.Explode.damage, kgDamage, damageRadius, sub_zero, toDouble_200, h1,
    toDouble_2000000, h2, toDouble_10000, toFloat_10000]

/-- The amount of line 188 within the radius is positive and at most 10000. -/
theorem damage_bounds {d : ℚ} (h0 : 0 ≤ d) (hd : d < 200) :
    0 < Missile.Explode.damage d ∧ Missile.Explode.damage d ≤ 10000 := by
  have p1 : 0 < toDouble (200 - d) := roundToPrecision_pos 53 (by norm_num) (by linarith)
  have u1 : toDouble (200 - d) ≤ 200 := by
    have := roundToPrecision_mono 53 (by norm_num) (by linarith : (0 : ℚ) ≤ 200 - d)
      (by linarith : 200 - d ≤ 200)
    rwa [show roundToPrecision 53 200 = 200 from toDouble_200] at this
  have p2 : 0 < toDouble (10000 * toDouble (200 - d)) :=
    roundToPrecision_pos 53 (by norm_num) (by positivity)
  have u2 : toDouble (10000 * toDouble (200 - d)) ≤ 2000000 := by
    have := roundToPrecision_mono 53 (by norm_num)
      (by positivity : (0 : ℚ) ≤ 10000 * toDouble (200 - d))
      (by linarith : 10000 * toDouble (200 - d) ≤ 2000000)
    rwa [show roundToPrecision 53 2000000 = 2000000 from toDouble_2000000] at this
  have p3 : 0 < toDouble (toDouble (10000 * toDouble (200 - d)) / 200) :=
    roundToPrecision_pos 53 (by norm_num) (by positivity)
  have u3 : toDouble (toDouble (10000 * toDouble (200 - d)) / 200) ≤ 10000 := by
    have hle : toDouble (10000 * toDouble (200 - d)) / 200 ≤ 10000 := by
      rw [div_le_iff₀ (by norm_num)]
      linarith
    have := roundToPrecision_mono 53 (by norm_num)
      (by positivity : (0 : ℚ) ≤ toDouble (10000 * toDouble (200 - d)) / 200) hle
    rwa [show roundToPrecision 53 10000 = 10000 from toDouble_10000] at this
  constructor
  · exact roundToPrecision_pos 24 (by norm_num) p3
  · have := roundToPrecision_mono 24 (by norm_num) p3.le u3
    rwa [show roundToPrecision 24 10000 = 10000 from toFloat_10000] at this

/-- C2, counterexample. A rock at distance `2^-20` in the projectile's frame:
the damage call it receives carries 10000, not the `10000 * (200 - d) / 200`
of the formula, which is `10000 - 25/524288`. -/
theorem Explode_damage_is_rounded :
    restPhysics.Length (grazingSpace.GetPosition 6 - grazingSpace.GetPosition sceneMissile.self)
      = 1 / 1048576 ∧
    grazingSpace.GetFrame 6 = grazingSpace.GetFrame sceneMissile.self ∧
    damageCallsTo 6 (sceneMissile.Explode restPhysics grazingSpace).2 = [(some 1, 10000)] ∧
    (10000 : ℚ) * (200 - 1 / 1048576) / 200 = 10000 - 25 / 524288 ∧
    (10000 : ℚ) ≠ 10000 * (200 - 1 / 1048576) / 200 := by
  have hd : sceneMissile.dist restPhysics (grazingSpace.KillBody sceneMissile.self) 6
      = 1 / 1048576 := by
    simp only [Missile.dist, Space.KillBody, grazingSpace, restPhysics, sceneSpace]
    norm_num [axisLength, sceneMissile]
  have s1 : toDouble (200 - 1 / 1048576) = 200 - 1 / 1048576 :=
    roundToPrecision_eq_self 53 7 ((200 * 2 ^ 20 - 1) * 2 ^ 25) (by norm_num) (by norm_num)
      (by norm_num)
  have s2 : toDouble (10000 * (200 - 1 / 1048576)) = 10000 * (200 - 1 / 1048576) :=
    roundToPrecision_eq_self 53 20 ((2000000 * 65536 - 625) * 2 ^ 16) (by norm_num)
      (by norm_num) (by norm_num)
  have e3 : (10000 : ℚ) * (200 - 1 / 1048576) / 200 = 10000 - 25 / 524288 := by norm_num
  have s3 : toDouble (10000 - 25 / 524288) = 10000 - 25 / 524288 :=
    roundToPrecision_eq_self 53 13 ((10000 * 2 ^ 19 - 25) * 2 ^ 20) (by norm_num) (by norm_num)
      (by norm_num)
  have s4 : toFloat (10000 - 25 / 524288) = 10000 := by
    have h1 : (2 : ℚ) ^ (13 : ℤ) ≤ 10000 - 25 / 524288 := by norm_num
    have h2 : (10000 - 25 / 524288 : ℚ) < 2 ^ ((13 : ℤ) + 1) := by norm_num
    have hx : (10000 - 25 / 524288 : ℚ) ≠ 0 := by norm_num
    have habs : |(10000 - 25 / 524288 : ℚ)| = 10000 - 25 / 524288 :=
      abs_of_pos (by norm_num)
    have hfl : ⌊(10000 - 25 / 524288 : ℚ) / 2 ^ ((13 : ℤ) - (24 : ℕ) + 1)⌋ = 10239999 := by
      rw [Int.floor_eq_iff]
      norm_num
    simp only [toFloat, roundToPrecision, hx, if_false, habs, log_two_eq h1 h2, roundHalfEven,
      hfl]
    norm_num
  have hdmg : Missile.Explode.damage (1 / 1048576) = 10000 := by
    simp only [Missile.Explode.damage, kgDamage, damageRadius, s1, s2, e3, s3, s4]
  refine ⟨?_, rfl, ?_, e3, by norm_num⟩
  · simp only [grazingSpace, restPhysics, sceneSpace]
    norm_num [axisLength, sceneMissile]
  · rw [Explode_damageCallsTo, damageCallsTo_sweep_count, hd, hdmg]
    simp [grazingSpace, Space.KillBody, sceneSpace, damageRadius, sceneMissile]
    norm_num

/-- C2, amended. In one `Explode`, a body of the projectile's frame at distance
`d` gets, when `d < 200`, one damage call for each time the 200-unit query
lists it (exactly one when it is listed once), attributed to the owner, whose
amount is `10000 * (200 - d) / 200` as line 188 computes it: each operation
rounded to `double`, the result narrowed to `float`. That amount is positive
and at most 10000, and is exactly 10000 at `d = 0`. When `d ≥ 200` the body
gets no damage call. -/
theorem Explode_damage_decay (ph : Physics) (m : Missile AICmd) (sp : Space) (body : BodyPtr)
    (hf : sp.GetFrame body = sp.GetFrame m.self) (h0 : 0 ≤ m.dist ph sp body) :
    (m.dist ph sp body < 200 →
      damageCallsTo body (m.Explode ph sp).2 =
        List.replicate (List.count body (sp.GetBodiesMaybeNear m.self 200))
          (m.m_owner,
            toFloat (toDouble (toDouble (10000 * toDouble (200 - m.dist ph sp body)) / 200))) ∧
      (List.count body (sp.GetBodiesMaybeNear m.self 200) = 1 →
        damageCallsTo body (m.Explode ph sp).2 =
          [(m.m_owner,
            toFloat (toDouble (toDouble (10000 * toDouble (200 - m.dist ph sp body)) / 200)))]) ∧
      0 < toFloat (toDouble (toDouble (10000 * toDouble (200 - m.dist ph sp body)) / 200)) ∧
      toFloat (toDouble (toDouble (10000 * toDouble (200 - m.dist ph sp body)) / 200))
        ≤ 10000) ∧
    (m.dist ph sp body = 0 →
      toFloat (toDouble (toDouble (10000 * toDouble (200 - m.dist ph sp body)) / 200))
        = 10000) ∧
    (200 ≤ m.dist ph sp body → damageCallsTo body (m.Explode ph sp).2 = []) := by
  have key := damageCallsTo_sweep_count ph (sp.KillBody m.self) m body
    (sp.GetBodiesMaybeNear m.self damageRadius)
  rw [← Explode_damageCallsTo] at key
  have hdist : m.dist ph (sp.KillBody m.self) body = m.dist ph sp body := rfl
  have hframe : (sp.KillBody m.self).GetFrame body = (sp.KillBody m.self).GetFrame m.self := hf
  rw [hdist] at key
  simp only [hframe, true_and, damageRadius, Missile.Explode.damage, kgDamage] at key
  have hb := fun hd => damage_bounds h0 hd
  simp only [Missile.Explode.damage, kgDamage, damageRadius] at hb
  refine ⟨fun hd => ⟨?_, fun hc => ?_, (hb hd).1, (hb hd).2⟩, fun hd => ?_, fun hd => ?_⟩
  · rw [key, if_pos hd]
  · rw [key, if_pos hd, hc]
    rfl
  · have := damage_zero
    simp only [Missile.Explode.damage, kgDamage, damageRadius] at this
    rw [hd]
    exact this
  · rw [key, if_neg (not_lt.mpr hd)]

/-- C3. In one `Explode`, a body whose frame is not the projectile's gets no
damage call and no `onShipHit` event, whatever the query returned and whatever
its distance. -/
theorem Explode_skips_other_frame (ph : Physics) (m : Missile AICmd) (sp : Space)
    (body : BodyPtr) (hf : sp.GetFrame body ≠ sp.GetFrame m.self) :
    damageCallsTo body (m.Explode ph sp).2 = [] ∧ shipHitsTo body (m.Explode ph sp).2 = [] := by
  rw [Explode_damageCallsTo, Explode_shipHitsTo]
  exact ⟨damageCallsTo_sweep_of_frame_ne ph _ m body _ hf,
    shipHitsTo_sweep_of_frame_ne ph _ m body _ hf⟩

/-- Witness of C1 in the example scene: the ship at distance 50 triggers, and
with only the rock at exactly 100 in reach nothing happens. -/
theorem TimeStepUpdate_armed_detonates_iff_witness :
    sceneMissile.m_owner = some 1 ∧ sceneMissile.m_armed = true ∧
      sceneMissile.TimeStepUpdate restPhysics 1 sceneSpace
        = sceneMissile.Explode restPhysics sceneSpace ∧
      sceneMissile.TimeStepUpdate restPhysics 1 boundarySpace = (boundarySpace, []) :=
  ⟨rfl, rfl,
    (TimeStepUpdate_armed_detonates_iff restPhysics sceneMissile 1 sceneSpace 1 rfl rfl).1.mpr
      ⟨2, by simp [restPhysics, sceneSpace], by decide, by
        simp only [restPhysics, sceneSpace]
        norm_num [axisLength, sceneMissile]⟩,
    (TimeStepUpdate_armed_detonates_iff restPhysics sceneMissile 1 boundarySpace 1 rfl rfl).2
      (fun body hmem => by
        simp only [restPhysics, boundarySpace, sceneSpace, List.mem_cons, List.mem_singleton,
          List.mem_nil_iff, or_false] at hmem
        rcases hmem with rfl | rfl
        · exact Or.inl rfl
        · refine Or.inr ?_
          simp only [restPhysics, boundarySpace, sceneSpace]
          norm_num [axisLength, sceneMissile])⟩

theorem toDouble_150 : toDouble 150 = 150 :=
  roundToPrecision_eq_self 53 7 (75 * 2 ^ 46) (by norm_num) (by norm_num) (by norm_num)

theorem toDouble_1500000 : toDouble 1500000 = 1500000 :=
  roundToPrecision_eq_self 53 20 (46875 * 2 ^ 37) (by norm_num) (by norm_num) (by norm_num)

theorem toDouble_7500 : toDouble 7500 = 7500 :=
  roundToPrecision_eq_self 53 12 (1875 * 2 ^ 42) (by norm_num) (by norm_num) (by norm_num)

theorem toFloat_7500 : toFloat 7500 = 7500 :=
  roundToPrecision_eq_self 24 12 (1875 * 2 ^ 13) (by norm_num) (by norm_num) (by norm_num)

/-- The amount of line 188 at distance 50. -/
theorem damage_50 : Missile.Explode.damage 50 = 7500 := by
  have h0 : (200 : ℚ) - 50 = 150 := by norm_num
  have h1 : (10000 : ℚ) * 150 = 1500000 := by norm_num
  have h2 : (1500000 : ℚ) / 200 = 7500 := by norm_num
  simp only [Missile.Explode.damage, kgDamage, damageRadius, h0, toDouble_150, h1,
    toDouble_1500000, h2, toDouble_7500, toFloat_7500]

/-- The distance of the ship 2 of the example scene, dead flags aside. -/
theorem scene_dist_2 (sp : Space) (h : sp.GetPosition = sceneSpace.GetPosition) :
    sceneMissile.dist restPhysics sp 2 = 50 := by
  simp only [Missile.dist, h, restPhysics, sceneSpace]
  norm_num [axisLength, sceneMissile]

/-- Witness of C2 in the example scene: the ship at distance 50, listed once,
takes 7500. -/
theorem Explode_damage_decay_witness :
    sceneSpace.GetFrame 2 = sceneSpace.GetFrame sceneMissile.self ∧
    sceneMissile.dist restPhysics sceneSpace 2 = 50 ∧
    damageCallsTo 2 (sceneMissile.Explode restPhysics sceneSpace).2 = [(some 1, 7500)] := by
  have hd := scene_dist_2 sceneSpace rfl
  have h := ((Explode_damage_decay restPhysics sceneMissile sceneSpace 2 rfl
    (by rw [hd]; norm_num)).1 (by rw [hd]; norm_num)).2.1 (by decide)
  rw [hd] at h
  have h50 := damage_50
  simp only [Missile.Explode.damage, kgDamage, damageRadius] at h50
  rw [h50] at h
  exact ⟨rfl, hd, h⟩

/-- Witness of C3 in the example scene: the ship at distance 10 in another
frame is left alone. -/
theorem Explode_skips_other_frame_witness :
    sceneSpace.GetFrame 3 ≠ sceneSpace.GetFrame sceneMissile.self ∧
      damageCallsTo 3 (sceneMissile.Explode restPhysics sceneSpace).2 = [] ∧
      shipHitsTo 3 (sceneMissile.Explode restPhysics sceneSpace).2 = [] :=
  ⟨by decide, Explode_skips_other_frame restPhysics sceneMissile sceneSpace 3 (by decide)⟩

/-! ### Loss of the owner -/

/-- C4. A projectile without owner detonates in one `TimeStepUpdate`, whatever
the armed flag and the query; and `NotifyRemoved` with the owner clears the
owner reference, so that the next `TimeStepUpdate` detonates. -/
theorem TimeStepUpdate_ownerless_detonates (ph : Physics) (ai : AICommandOps AICmd)
    (m : Missile AICmd) (timeStep : ℚ) (sp : Space) :
    (m.m_owner = none →
      m.TimeStepUpdate ph timeStep sp = m.Explode ph (ph.integrate m.self timeStep sp)) ∧
    (∀ owner, m.m_owner = some owner →
      (m.NotifyRemoved ai (some owner)).m_owner = none ∧
      (m.NotifyRemoved ai (some owner)).m_armed = m.m_armed ∧
      (m.NotifyRemoved ai (some owner)).TimeStepUpdate ph timeStep sp
        = (m.NotifyRemoved ai (some owner)).Explode ph (ph.integrate m.self timeStep sp)) := by
  refine ⟨fun h => ?_, fun owner h => ?_⟩
  · simp only [Missile.TimeStepUpdate, h]
  · have hn : (m.NotifyRemoved ai (some owner)).m_owner = none := by
      simp [Missile.NotifyRemoved, h]
    have hs : (m.NotifyRemoved ai (some owner)).self = m.self := by
      simp [Missile.NotifyRemoved, h]
    refine ⟨hn, by simp [Missile.NotifyRemoved, h], ?_⟩
    simp only [Missile.TimeStepUpdate, hn, hs]

/-- Witness of C4: the disarmed example projectile, once its owner is removed. -/
theorem TimeStepUpdate_ownerless_detonates_witness :
    ({ sceneMissile with m_armed := false }.NotifyRemoved pursuitOps (some 1)).m_armed = false ∧
    ({ sceneMissile with m_armed := false }.NotifyRemoved pursuitOps (some 1)).TimeStepUpdate
        restPhysics 1 boundarySpace
      = ({ sceneMissile with m_armed := false }.NotifyRemoved pursuitOps (some 1)).Explode
          restPhysics boundarySpace :=
  ⟨((TimeStepUpdate_ownerless_detonates restPhysics pursuitOps
      { sceneMissile with m_armed := false } 1 boundarySpace).2 1 rfl).2.1,
   ((TimeStepUpdate_ownerless_detonates restPhysics pursuitOps
      { sceneMissile with m_armed := false } 1 boundarySpace).2 1 rfl).2.2⟩

/-! ### Detonation of a dead projectile -/

/-- After `Explode` the projectile is dead. -/
theorem Explode_IsDead (ph : Physics) (m : Missile AICmd) (sp : Space) :
    (m.Explode ph sp).1.IsDead m.self = true := by
  simp [Missile.Explode, Space.KillBody]

/-- On a dead projectile the collision handler, the damage handler and
`ECMAttack` do not reach `Explode`: they call nothing and leave the space as it
is, and the two handlers report the event as handled. -/
theorem handlers_on_dead_are_noops (ph : Physics) (m : Missile AICmd) (sp : Space)
    (hdead : sp.IsDead m.self = true) (o attacker : Option BodyPtr) (flags : Nat)
    (relVel kg : ℚ) (power_val : Int) :
    m.OnCollision ph o flags relVel sp = (sp, [], true) ∧
    m.OnDamage ph attacker kg sp = (sp, [], true) ∧
    m.ECMAttack ph power_val sp = (sp, []) := by
  refine ⟨by simp [Missile.OnCollision, hdead], by simp [Missile.OnDamage, hdead], ?_⟩
  unfold Missile.ECMAttack
  split <;> simp [Missile.OnDamage, hdead]

theorem collidedSpace_eq : collidedSpace = sceneSpace.KillBody sceneMissile.self := by
  simp [collidedSpace, Missile.OnCollision, Missile.Explode, sceneSpace]

/-- C5, the code at the failing input. The example projectile detonates on a
collision, which damages the ship at distance 50 and leaves the projectile
dead. The `TimeStepUpdate` of the same tick has no dead check: it runs
`Explode` a second time, and the ship takes the 7500 again, `onShipHit` is
raised again and the explosion effect is emitted again. The sibling handlers
`OnCollision` and `OnDamage` do nothing on the dead projectile. -/
theorem TimeStepUpdate_on_dead_detonates_again :
    damageCallsTo 2 (sceneMissile.OnCollision restPhysics (some 2) 0 0 sceneSpace).2.1
      = [(some 1, 7500)] ∧
    collidedSpace.IsDead sceneMissile.self = true ∧
    sceneMissile.TimeStepUpdate restPhysics 1 collidedSpace
      = sceneMissile.Explode restPhysics collidedSpace ∧
    damageCallsTo 2 (sceneMissile.TimeStepUpdate restPhysics 1 collidedSpace).2
      = [(some 1, 7500)] ∧
    shipHitsTo 2 (sceneMissile.TimeStepUpdate restPhysics 1 collidedSpace).2 = [some 1] ∧
    explosionEffects (sceneMissile.TimeStepUpdate restPhysics 1 collidedSpace).2 = [0] ∧
    sceneMissile.OnCollision restPhysics (some 2) 0 0 collidedSpace = (collidedSpace, [], true) ∧
    sceneMissile.OnDamage restPhysics (some 2) 1 collidedSpace = (collidedSpace, [], true) := by
  have hdead : collidedSpace.IsDead sceneMissile.self = true := by
    rw [collidedSpace_eq]
    simp [Space.KillBody]
  have hdmg : ∀ sp : Space, sp.GetPosition = sceneSpace.GetPosition →
      sp.GetFrame = sceneSpace.GetFrame →
      sp.GetBodiesMaybeNear = sceneSpace.GetBodiesMaybeNear →
      damageCallsTo 2 (sceneMissile.Explode restPhysics sp).2 = [(some 1, 7500)] := by
    intro sp hp hfr hq
    rw [Explode_damageCallsTo, damageCallsTo_sweep_count,
      scene_dist_2 (sp.KillBody sceneMissile.self) hp, damage_50]
    simp [Space.KillBody, hfr, hq, sceneSpace, damageRadius, sceneMissile]
    norm_num
  have hscan : Missile.TimeStepUpdate.scan restPhysics collidedSpace sceneMissile
      (collidedSpace.GetBodiesMaybeNear sceneMissile.self MISSILE_DETECTION_RADIUS) = true := by
    rw [scan_eq_true_iff]
    refine ⟨2, by simp [collidedSpace_eq, Space.KillBody, sceneSpace], by decide, ?_⟩
    rw [scene_dist_2 collidedSpace (by rw [collidedSpace_eq]; rfl)]
    norm_num [MISSILE_DETECTION_RADIUS]
  have hT : sceneMissile.TimeStepUpdate restPhysics 1 collidedSpace
      = sceneMissile.Explode restPhysics collidedSpace := by
    have hint : restPhysics.integrate sceneMissile.self 1 collidedSpace = collidedSpace := rfl
    have ho : sceneMissile.m_owner = some 1 := rfl
    have ha : sceneMissile.m_armed = true := rfl
    simp only [Missile.TimeStepUpdate, hint, ho, ha, hscan, if_true]
  have hh := handlers_on_dead_are_noops restPhysics sceneMissile collidedSpace hdead
    (some 2) (some 2) 0 0 1 0
  refine ⟨?_, hdead, hT, ?_, ?_, ?_, hh.1, hh.2.1⟩
  · have hlive : sceneSpace.IsDead sceneMissile.self = false := rfl
    simp only [Missile.OnCollision, hlive]
    exact hdmg sceneSpace rfl rfl rfl
  · rw [hT]
    exact hdmg collidedSpace (by rw [collidedSpace_eq]; rfl) (by rw [collidedSpace_eq]; rfl)
      (by rw [collidedSpace_eq]; rfl)
  · rw [hT, collidedSpace_eq]
    simp only [Missile.Explode, Space.KillBody, sceneSpace, restPhysics, sceneMissile,
      Missile.Explode.sweep, Missile.dist, damageRadius]
    norm_num [axisLength, shipHitsTo]
  · rw [hT, collidedSpace_eq]
    simp only [Missile.Explode, Space.KillBody, sceneSpace, restPhysics, sceneMissile,
      Missile.Explode.sweep, Missile.dist, damageRadius]
    norm_num [axisLength, explosionEffects]

/-! ### Serialization -/

theorem JsonObject.find_assign_self (members : JsonObject) (key : String) (value : Json) :
    JsonObject.find (JsonObject.assign members key value) key = some value := by
  simp [JsonObject.find, JsonObject.assign]

theorem JsonObject.find_assign_of_ne (members : JsonObject) (key key' : String) (value : Json)
    (h : key' ≠ key) :
    JsonObject.find (JsonObject.assign members key value) key'
      = JsonObject.find members key' := by
  have hk : (key == key') = false := by simpa using (Ne.symm h)
  simp only [JsonObject.find, JsonObject.assign, List.find?_cons, hk]
  congr 1
  induction members with
  | nil => rfl
  | cons e es ih =>
    obtain ⟨k, v⟩ := e
    by_cases he : k = key
    · subst he
      simp [List.filter_cons, List.find?_cons, hk, ih]
    · have hne : (k == key) = false := by simpa using he
      simp [List.filter_cons, List.find?_cons, hne, ih]

theorem JsonObject.find_append_single_of_ne (members : JsonObject) (key key' : String)
    (value : Json) (h : key' ≠ key) :
    JsonObject.find (members ++ [(key, value)]) key' = JsonObject.find members key' := by
  have hk : (key == key') = false := by simpa using (Ne.symm h)
  simp only [JsonObject.find, List.find?_append, List.find?_cons, hk, List.find?_nil]
  cases List.find? (fun e => e.1 == key') members <;> rfl

theorem JsonObject.get_append_single_of_ne (members : JsonObject) (key key' : String)
    (value : Json) (h : key' ≠ key) :
    JsonObject.get (members ++ [(key, value)]) key' = JsonObject.get members key' := by
  simp [JsonObject.get, JsonObject.find_append_single_of_ne members key key' value h]

/-- A read on an object finds the member or null, and leaves an object on
which the reads of the other keys are unchanged. -/
theorem Json.index_object (members : JsonObject) (key : String) :
    ∃ members', (Json.object members).index key
        = .ok (JsonObject.get members key, Json.object members') ∧
      ∀ key', key' ≠ key → JsonObject.get members' key' = JsonObject.get members key' := by
  unfold Json.index JsonObject.get
  cases h : JsonObject.find members key with
  | some v => exact ⟨members, by simp [h], fun _ _ => rfl⟩
  | none =>
    refine ⟨members ++ [(key, Json.null)], by simp [h], fun key' hne => ?_⟩
    have := JsonObject.get_append_single_of_ne members key key' Json.null hne
    simpa [JsonObject.get] using this

/-- Lines 59-65 on an object, with the reads spelled out on the members. -/
theorem fromJson_fields_object (conv : JsonConv) (ai : AICommandOps AICmd) (self : BodyPtr)
    (props : PropertyMap) (ty : ShipType) (members members₀ : JsonObject)
    (hget : ∀ key, key ≠ "ship_type_id" →
      JsonObject.get members key = JsonObject.get members₀ key) :
    Missile.fromJson.fields conv ai self props ty (Json.object members) =
      (ai.LoadFromJson (Json.object members)).bind fun cmd =>
      (typed (conv.toAIError (JsonObject.get members₀ "ai_message"))).bind fun msg =>
      (typed (conv.toInt (JsonObject.get members₀ "index_for_body"))).bind fun idx =>
      (typed (conv.toInt (JsonObject.get members₀ "power"))).bind fun pw =>
      (typed (conv.toBool (JsonObject.get members₀ "armed"))).bind fun ar =>
      .ok { self := self, m_type := ty, m_owner := none, m_ownerIndex := idx, m_power := pw,
            m_armed := ar, m_curAICmd := cmd, m_aiMessage := msg, Properties := props } := by
  obtain ⟨m1, h1, g1⟩ := Json.index_object members "ai_message"
  obtain ⟨m2, h2, g2⟩ := Json.index_object m1 "index_for_body"
  obtain ⟨m3, h3, g3⟩ := Json.index_object m2 "power"
  obtain ⟨m4, h4, g4⟩ := Json.index_object m3 "armed"
  have e1 : JsonObject.get members "ai_message" = JsonObject.get members₀ "ai_message" :=
    hget _ (by decide)
  have e2 : JsonObject.get m1 "index_for_body" = JsonObject.get members₀ "index_for_body" := by
    rw [g1 _ (by decide)]
    exact hget _ (by decide)
  have e3 : JsonObject.get m2 "power" = JsonObject.get members₀ "power" := by
    rw [g2 _ (by decide), g1 _ (by decide)]
    exact hget _ (by decide)
  have e4 : JsonObject.get m3 "armed" = JsonObject.get members₀ "armed" := by
    rw [g3 _ (by decide), g2 _ (by decide), g1 _ (by decide)]
    exact hget _ (by decide)
  rw [e1] at h1
  rw [e2] at h2
  rw [e3] at h3
  rw [e4] at h4
  unfold Missile.fromJson.fields
  cases hl : ai.LoadFromJson (Json.object members) with
  | error e => rfl
  | ok cmd =>
    simp only [bind, Except.bind, h1]
    cases c1 : conv.toAIError (JsonObject.get members₀ "ai_message") with
    | none => rfl
    | some msg =>
      simp only [typed, h2]
      cases c2 : conv.toInt (JsonObject.get members₀ "index_for_body") with
      | none => rfl
      | some idx =>
        simp only [h3]
        cases c3 : conv.toInt (JsonObject.get members₀ "power") with
        | none => rfl
        | some pw =>
          simp only [h4]
          cases c4 : conv.toBool (JsonObject.get members₀ "armed") with
          | none => rfl
          | some ar => rfl

theorem JsonObject.get_assign_self (members : JsonObject) (key : String) (value : Json) :
    JsonObject.get (JsonObject.assign members key value) key = value := by
  simp [JsonObject.get, JsonObject.find_assign_self]

theorem JsonObject.get_assign_of_ne (members : JsonObject) (key key' : String) (value : Json)
    (h : key' ≠ key) :
    JsonObject.get (JsonObject.assign members key value) key' = JsonObject.get members key' := by
  simp [JsonObject.get, JsonObject.find_assign_of_ne members key key' value h]

/-- The restoring constructor on an object, with the reads spelled out on its
members; `members'` is the object after the read of `ship_type_id`. -/
theorem fromJson_object (conv : JsonConv) (ai : AICommandOps AICmd) (dflt : ShipType)
    (types : ShipTypes) (self : BodyPtr) (props : PropertyMap) (members : JsonObject) :
    ∃ members' : JsonObject,
      (JsonObject.find members "ship_type_id" ≠ none → members' = members) ∧
      Missile.fromJson conv ai dflt types self props (Json.object members) =
        match conv.toId (JsonObject.get members "ship_type_id") with
        | none => (types, .error Exn.SavedGameCorruptException)
        | some id =>
          ((ShipTypes.index dflt types id).1,
            catchTypeError (
              (ai.LoadFromJson (Json.object members')).bind fun cmd =>
              (typed (conv.toAIError (JsonObject.get members "ai_message"))).bind fun msg =>
              (typed (conv.toInt (JsonObject.get members "index_for_body"))).bind fun idx =>
              (typed (conv.toInt (JsonObject.get members "power"))).bind fun pw =>
              (typed (conv.toBool (JsonObject.get members "armed"))).bind fun ar =>
              .ok { self := self, m_type := (ShipTypes.index dflt types id).2, m_owner := none,
                    m_ownerIndex := idx, m_power := pw, m_armed := ar, m_curAICmd := cmd,
                    m_aiMessage := msg, Properties := props })) := by
  cases hfind : JsonObject.find members "ship_type_id" with
  | some v =>
    refine ⟨members, fun _ => rfl, ?_⟩
    have hget : JsonObject.get members "ship_type_id" = v := by simp [JsonObject.get, hfind]
    simp only [Missile.fromJson, Json.index, hfind, hget]
    cases conv.toId v with
    | none => rfl
    | some id =>
      simp only []
      rw [fromJson_fields_object conv ai self props _ members members (fun _ _ => rfl)]
  | none =>
    refine ⟨members ++ [("ship_type_id", Json.null)], fun h => absurd rfl h, ?_⟩
    have hget : JsonObject.get members "ship_type_id" = Json.null := by
      simp [JsonObject.get, hfind]
    simp only [Missile.fromJson, Json.index, hfind, hget]
    cases conv.toId Json.null with
    | none => rfl
    | some id =>
      simp only []
      rw [fromJson_fields_object conv ai self props _ _ members
        (fun key hne => JsonObject.get_append_single_of_ne members _ key Json.null hne)]

theorem absentOrRejected_get {α : Type} (members : JsonObject) (key : String)
    (reads : Json → Option α) (hnull : reads Json.null = none)
    (h : absentOrRejected members key reads) : reads (JsonObject.get members key) = none := by
  unfold absentOrRejected at h
  unfold JsonObject.get
  cases hf : JsonObject.find members key with
  | none => simpa using hnull
  | some v =>
    rw [hf] at h
    simpa using h

theorem catchTypeError_error {α : Type} (e : Exn) :
    catchTypeError (Except.error e : Except Exn α) = .error Exn.SavedGameCorruptException := by
  cases e <;> rfl

/-- When one of the five typed reads of lines 56-65 finds its member absent or
throws on the value, the restoring constructor throws
`SavedGameCorruptException`; `null`, which an absent member reads as, is
assumed to be rejected by every read. -/
theorem fromJson_rejected_read_is_corrupt (conv : JsonConv) (ai : AICommandOps AICmd)
    (dflt : ShipType) (types : ShipTypes) (self : BodyPtr) (props : PropertyMap)
    (members : JsonObject)
    (hnull : conv.toId Json.null = none ∧ conv.toAIError Json.null = none ∧
      conv.toInt Json.null = none ∧ conv.toBool Json.null = none)
    (hbad : absentOrRejected members "ship_type_id" conv.toId ∨
      absentOrRejected members "ai_message" conv.toAIError ∨
      absentOrRejected members "index_for_body" conv.toInt ∨
      absentOrRejected members "power" conv.toInt ∨
      absentOrRejected members "armed" conv.toBool) :
    (Missile.fromJson conv ai dflt types self props (Json.object members)).2
      = .error Exn.SavedGameCorruptException := by
  obtain ⟨members', -, heq⟩ := fromJson_object conv ai dflt types self props members
  rw [heq]
  cases hid : conv.toId (JsonObject.get members "ship_type_id") with
  | none => rfl
  | some id =>
    simp only []
    cases hl : ai.LoadFromJson (Json.object members') with
    | error e => exact catchTypeError_error e
    | ok cmd =>
      cases h1 : conv.toAIError (JsonObject.get members "ai_message") with
      | none => rfl
      | some msg =>
        cases h2 : conv.toInt (JsonObject.get members "index_for_body") with
        | none => rfl
        | some idx =>
          cases h3 : conv.toInt (JsonObject.get members "power") with
          | none => rfl
          | some pw =>
            cases h4 : conv.toBool (JsonObject.get members "armed") with
            | none => rfl
            | some ar =>
              exfalso
              rcases hbad with h | h | h | h | h
              · have := absentOrRejected_get members _ _ hnull.1 h
                rw [hid] at this
                exact Option.noConfusion this
              · have := absentOrRejected_get members _ _ hnull.2.1 h
                rw [h1] at this
                exact Option.noConfusion this
              · have := absentOrRejected_get members _ _ hnull.2.2.1 h
                rw [h2] at this
                exact Option.noConfusion this
              · have := absentOrRejected_get members _ _ hnull.2.2.1 h
                rw [h3] at this
                exact Option.noConfusion this
              · have := absentOrRejected_get members _ _ hnull.2.2.2 h
                rw [h4] at this
                exact Option.noConfusion this

theorem library_toId_none (v : Json) (h : v.type ∉ [JsonType.string]) :
    JsonConv.library.toId v = none := by
  cases v <;> simp [Json.type] at h <;> rfl

theorem library_toAIError_none (v : Json) (h : v.type ∉ [JsonType.number]) :
    JsonConv.library.toAIError v = none := by
  cases v <;> simp [Json.type] at h <;> rfl

theorem library_toInt_none (v : Json) (h : v.type ∉ [JsonType.number, JsonType.boolean]) :
    JsonConv.library.toInt v = none := by
  cases v <;> simp [Json.type] at h <;> rfl

theorem library_toBool_none (v : Json) (h : v.type ∉ [JsonType.boolean]) :
    JsonConv.library.toBool v = none := by
  cases v <;> simp [Json.type] at h <;> rfl

theorem absentOrRejected_of_typed {α : Type} (members : JsonObject) (key : String)
    (allowed : List JsonType) (reads : Json → Option α)
    (hreads : ∀ v : Json, v.type ∉ allowed → reads v = none)
    (h : absentOrTypedOutside members key allowed) : absentOrRejected members key reads := by
  unfold absentOrTypedOutside at h
  unfold absentOrRejected
  cases hf : JsonObject.find members key with
  | none => trivial
  | some v =>
    rw [hf] at h
    exact hreads v h

/-- C7, counterexample. A `missile` object that holds the boolean `true` under
`power`, a value of the wrong JSON type for an integer, and is well formed
otherwise: the restore does not fail, it yields a projectile of power rank 1. -/
theorem fromJson_boolean_power_is_read :
    JsonObject.find booleanPowerObj "power" = some (Json.boolean true) ∧
    (Json.boolean true).type ≠ JsonType.number ∧
    ∃ m, (Missile.fromJson JsonConv.library pursuitOps defaultType sceneTypes 7 (fun _ => none)
        (Json.object booleanPowerObj)).2 = .ok m ∧ m.m_power = 1 ∧ m.m_armed = true := by
  refine ⟨by simp [JsonObject.find, booleanPowerObj], by decide, ?_⟩
  exact ⟨_, rfl, rfl, rfl⟩

/-- C7, amended. With the typed reads of the JSON library, the restoring
constructor throws `SavedGameCorruptException`, and yields no projectile, when
one of the five members is absent or holds a value of a JSON type its read
does not take: anything but a string under `ship_type_id`, anything but a
number under `ai_message`, anything but a number or a boolean under
`index_for_body` and under `power`, anything but a boolean under `armed`. When
the five reads and the AI command loader succeed the projectile is restored
with the values read, and an `int` read of a boolean gives 0 or 1, so a boolean
under `index_for_body` or `power` does not make the restore fail. -/
theorem fromJson_absent_or_mistyped_is_corrupt (ai : AICommandOps AICmd)
    (dflt : ShipType) (types : ShipTypes) (self : BodyPtr) (props : PropertyMap)
    (members : JsonObject) :
    ((absentOrTypedOutside members "ship_type_id" [JsonType.string] ∨
        absentOrTypedOutside members "ai_message" [JsonType.number] ∨
        absentOrTypedOutside members "index_for_body" [JsonType.number, JsonType.boolean] ∨
        absentOrTypedOutside members "power" [JsonType.number, JsonType.boolean] ∨
        absentOrTypedOutside members "armed" [JsonType.boolean]) →
      (Missile.fromJson JsonConv.library ai dflt types self props (Json.object members)).2
        = .error Exn.SavedGameCorruptException) ∧
    (∀ (id : String) (cmd : Option AICmd) (msg idx pw : Int) (ar : Bool),
      JsonObject.find members "ship_type_id" = some (Json.string id) →
      ai.LoadFromJson (Json.object members) = .ok cmd →
      JsonConv.library.toAIError (JsonObject.get members "ai_message") = some msg →
      JsonConv.library.toInt (JsonObject.get members "index_for_body") = some idx →
      JsonConv.library.toInt (JsonObject.get members "power") = some pw →
      JsonConv.library.toBool (JsonObject.get members "armed") = some ar →
      (Missile.fromJson JsonConv.library ai dflt types self props (Json.object members)).2
        = .ok { self := self, m_type := (ShipTypes.index dflt types id).2, m_owner := none,
                m_ownerIndex := idx, m_power := pw, m_armed := ar, m_curAICmd := cmd,
                m_aiMessage := msg, Properties := props }) ∧
    (∀ b : Bool, JsonConv.library.toInt (Json.boolean b) = some (if b then 1 else 0)) := by
  refine ⟨fun hbad => ?_, fun id cmd msg idx pw ar hid hl hmsg hidx hpw har => ?_, fun b => rfl⟩
  · apply fromJson_rejected_read_is_corrupt JsonConv.library ai dflt types self props members
      ⟨rfl, rfl, rfl, rfl⟩
    rcases hbad with h | h | h | h | h
    · exact Or.inl (absentOrRejected_of_typed _ _ _ _ library_toId_none h)
    · exact Or.inr (Or.inl (absentOrRejected_of_typed _ _ _ _ library_toAIError_none h))
    · exact Or.inr (Or.inr (Or.inl (absentOrRejected_of_typed _ _ _ _ library_toInt_none h)))
    · exact Or.inr (Or.inr (Or.inr (Or.inl
        (absentOrRejected_of_typed _ _ _ _ library_toInt_none h))))
    · exact Or.inr (Or.inr (Or.inr (Or.inr
        (absentOrRejected_of_typed _ _ _ _ library_toBool_none h))))
  · obtain ⟨members', hsame, heq⟩ :=
      fromJson_object JsonConv.library ai dflt types self props members
    have hm : members' = members := hsame (by rw [hid]; exact Option.noConfusion)
    have hget : JsonObject.get members "ship_type_id" = Json.string id := by
      simp [JsonObject.get, hid]
    have hconv : JsonConv.library.toId (Json.string id) = some id := rfl
    rw [heq, hm, hget, hconv]
    simp only [hl, hmsg, hidx, hpw, har, typed, Except.bind, catchTypeError]

/-- Witness of C7 amended: with the `armed` member removed the restore fails. -/
theorem fromJson_absent_or_mistyped_is_corrupt_witness :
    JsonObject.find disarmedFieldRemoved "armed" = none ∧
    (Missile.fromJson JsonConv.library pursuitOps defaultType sceneTypes 7 (fun _ => none)
        (Json.object disarmedFieldRemoved)).2 = .error Exn.SavedGameCorruptException :=
  ⟨by simp [JsonObject.find, disarmedFieldRemoved],
    (fromJson_absent_or_mistyped_is_corrupt pursuitOps defaultType sceneTypes 7
      (fun _ => none) disarmedFieldRemoved).1
      (Or.inr (Or.inr (Or.inr (Or.inr
        (by simp [absentOrTypedOutside, JsonObject.find, disarmedFieldRemoved])))))⟩

/-- C8, the code at the failing input: a well-typed `ship_type_id` that names no
entry of the table does not make the restore fail; `ShipType::types[...]`
inserts a default-constructed descriptor under that id and the projectile is
restored with it. -/
theorem fromJson_unknown_type_inserts_default :
    ShipTypes.find sceneTypes "missile_unknown" = none ∧
    (Missile.fromJson JsonConv.strict pursuitOps defaultType sceneTypes 7 (fun _ => none)
        (Json.object unknownTypeObj)).1 = sceneTypes ++ [("missile_unknown", defaultType)] ∧
    ∃ m, (Missile.fromJson JsonConv.strict pursuitOps defaultType sceneTypes 7 (fun _ => none)
        (Json.object unknownTypeObj)).2 = .ok m ∧ m.m_type = defaultType ∧ m.m_power = 1 ∧
        m.m_armed = true := by
  refine ⟨by decide, by decide, ?_⟩
  exact ⟨_, rfl, rfl, rfl, rfl⟩

/-- The members `Missile::SaveToJson` assigns, as a read sees them. -/
theorem missileObj_get (ai : AICommandOps AICmd) (m : Missile AICmd) (space : Space) :
    JsonObject.find (Missile.SaveToJson.missileObj ai m space) "ship_type_id"
      = some (Json.string m.m_type.id) ∧
    JsonObject.get (Missile.SaveToJson.missileObj ai m space) "ship_type_id"
      = Json.string m.m_type.id ∧
    JsonObject.get (Missile.SaveToJson.missileObj ai m space) "ai_message"
      = Json.number m.m_aiMessage ∧
    JsonObject.get (Missile.SaveToJson.missileObj ai m space) "index_for_body"
      = Json.number (space.GetIndexForBody m.m_owner) ∧
    JsonObject.get (Missile.SaveToJson.missileObj ai m space) "power"
      = Json.number m.m_power ∧
    JsonObject.get (Missile.SaveToJson.missileObj ai m space) "armed"
      = Json.boolean m.m_armed := by
  unfold Missile.SaveToJson.missileObj
  refine ⟨JsonObject.find_assign_self _ _ _, JsonObject.get_assign_self _ _ _, ?_, ?_, ?_, ?_⟩
  · rw [JsonObject.get_assign_of_ne _ _ _ _ (by decide),
      JsonObject.get_assign_of_ne _ _ _ _ (by decide),
      JsonObject.get_assign_of_ne _ _ _ _ (by decide),
      JsonObject.get_assign_of_ne _ _ _ _ (by decide), JsonObject.get_assign_self]
  · rw [JsonObject.get_assign_of_ne _ _ _ _ (by decide),
      JsonObject.get_assign_of_ne _ _ _ _ (by decide),
      JsonObject.get_assign_of_ne _ _ _ _ (by decide), JsonObject.get_assign_self]
  · rw [JsonObject.get_assign_of_ne _ _ _ _ (by decide),
      JsonObject.get_assign_of_ne _ _ _ _ (by decide), JsonObject.get_assign_self]
  · rw [JsonObject.get_assign_of_ne _ _ _ _ (by decide), JsonObject.get_assign_self]

/-- What the AI command loader finds in the object `Missile::SaveToJson` built,
when it is blind to the keys the projectile assigns. -/
theorem missileObj_LoadFromJson (ai : AICommandOps AICmd) (m : Missile AICmd) (space : Space)
    (hkeys : ∀ (obj : JsonObject) (key : String) (value : Json), key ∈ missileKeys →
      ai.LoadFromJson (Json.object (JsonObject.assign obj key value))
        = ai.LoadFromJson (Json.object obj)) :
    ai.LoadFromJson (Json.object (Missile.SaveToJson.missileObj ai m space)) =
      ai.LoadFromJson (Json.object
        (match m.m_curAICmd with
          | some c => ai.SaveToJson space c []
          | none => [])) := by
  unfold Missile.SaveToJson.missileObj
  rw [hkeys _ _ _ (by simp [missileKeys]), hkeys _ _ _ (by simp [missileKeys]),
    hkeys _ _ _ (by simp [missileKeys]), hkeys _ _ _ (by simp [missileKeys]),
    hkeys _ _ _ (by simp [missileKeys])]

/-- C6. Round trip: restoring from the object `SaveToJson` stored under
`missile` and running `PostLoadFixup` against the same space gives a projectile
with the same power, armed flag, type descriptor, AI-error code, owner and AI
command. The typed reads are assumed to return what was written, the space to
resolve the owner's index back to the owner, the type table to hold the
projectile's descriptor under its id, and the AI command to round-trip through
its own save, load and fixup. -/
theorem SaveToJson_fromJson_roundtrip (conv : JsonConv) (ai : AICommandOps AICmd)
    (dflt : ShipType) (types : ShipTypes) (m : Missile AICmd) (jsonObj : JsonObject)
    (space : Space) (self : BodyPtr) (props : PropertyMap)
    (hId : ∀ s, conv.toId (Json.string s) = some s)
    (hErr : ∀ n, conv.toAIError (Json.number n) = some n)
    (hInt : ∀ n, conv.toInt (Json.number n) = some n)
    (hBool : ∀ b, conv.toBool (Json.boolean b) = some b)
    (hOwner : space.GetBodyByIndex (space.GetIndexForBody m.m_owner) = m.m_owner)
    (hType : ShipTypes.find types m.m_type.id = some m.m_type)
    (hkeys : ∀ (obj : JsonObject) (key : String) (value : Json), key ∈ missileKeys →
      ai.LoadFromJson (Json.object (JsonObject.assign obj key value))
        = ai.LoadFromJson (Json.object obj))
    (hnone : ai.LoadFromJson (Json.object []) = .ok none)
    (hcmd : ∀ c, m.m_curAICmd = some c →
      ∃ c', ai.LoadFromJson (Json.object (ai.SaveToJson space c [])) = .ok (some c') ∧
        ai.PostLoadFixup space c' = c) :
    ∃ (missileObj : Json) (m' : Missile AICmd),
      JsonObject.find (m.SaveToJson ai jsonObj space) "missile" = some missileObj ∧
      Missile.fromJson conv ai dflt types self props missileObj = (types, .ok m') ∧
      (m'.PostLoadFixup ai space).m_power = m.m_power ∧
      (m'.PostLoadFixup ai space).m_armed = m.m_armed ∧
      (m'.PostLoadFixup ai space).m_type = m.m_type ∧
      (m'.PostLoadFixup ai space).m_aiMessage = m.m_aiMessage ∧
      (m'.PostLoadFixup ai space).m_owner = m.m_owner ∧
      (m'.PostLoadFixup ai space).m_curAICmd = m.m_curAICmd := by
  obtain ⟨hfind, hty, hmsg, hidx, hpw, har⟩ := missileObj_get ai m space
  obtain ⟨members', hsame, heq⟩ := fromJson_object conv ai dflt types self props
    (Missile.SaveToJson.missileObj ai m space)
  have hm' : members' = Missile.SaveToJson.missileObj ai m space :=
    hsame (by rw [hfind]; exact Option.noConfusion)
  have hindex : ShipTypes.index dflt types m.m_type.id = (types, m.m_type) := by
    simp [ShipTypes.index, hType]
  rw [hm', hty, hmsg, hidx, hpw, har, hId, hErr, hInt, hInt, hBool,
    missileObj_LoadFromJson ai m space hkeys] at heq
  simp only [hindex, typed, Except.bind] at heq
  cases hc : m.m_curAICmd with
  | none =>
    rw [hc] at heq
    simp only [hnone, catchTypeError] at heq
    refine ⟨_, _, JsonObject.find_assign_self _ _ _, heq, rfl, rfl, rfl, rfl, ?_, ?_⟩
    · simpa [Missile.PostLoadFixup] using hOwner
    · simp [Missile.PostLoadFixup]
  | some c =>
    obtain ⟨c', hload, hfix⟩ := hcmd c hc
    rw [hc] at heq
    simp only [hload, catchTypeError] at heq
    refine ⟨_, _, JsonObject.find_assign_self _ _ _, heq, rfl, rfl, rfl, rfl, ?_, ?_⟩
    · simpa [Missile.PostLoadFixup] using hOwner
    · simp [Missile.PostLoadFixup, hfix]

theorem pursuitOps_blind (obj : JsonObject) (key : String) (value : Json)
    (h : key ∈ missileKeys) :
    pursuitOps.LoadFromJson (Json.object (JsonObject.assign obj key value))
      = pursuitOps.LoadFromJson (Json.object obj) := by
  have hne : "ai_command" ≠ key := by
    intro e
    subst e
    simp [missileKeys] at h
  simp only [pursuitOps, JsonObject.find_assign_of_ne obj key "ai_command" value hne]

/-- Witness of C6: the example projectile, armed and pursuing body 2. -/
theorem SaveToJson_fromJson_roundtrip_witness :
    ∃ (missileObj : Json) (m' : Missile PursuitCmd),
      JsonObject.find (sceneMissile.SaveToJson pursuitOps [] sceneSpace) "missile"
        = some missileObj ∧
      Missile.fromJson JsonConv.strict pursuitOps defaultType sceneTypes 7 (fun _ => none)
        missileObj = (sceneTypes, .ok m') ∧
      (m'.PostLoadFixup pursuitOps sceneSpace).m_power = 1 ∧
      (m'.PostLoadFixup pursuitOps sceneSpace).m_armed = true ∧
      (m'.PostLoadFixup pursuitOps sceneSpace).m_type = guidedType ∧
      (m'.PostLoadFixup pursuitOps sceneSpace).m_aiMessage = 0 ∧
      (m'.PostLoadFixup pursuitOps sceneSpace).m_owner = some 1 ∧
      (m'.PostLoadFixup pursuitOps sceneSpace).m_curAICmd
        = some { target := some 2, targetIndex := 3 } :=
  SaveToJson_fromJson_roundtrip JsonConv.strict pursuitOps defaultType sceneTypes sceneMissile []
    sceneSpace 7 (fun _ => none) (fun _ => rfl) (fun _ => rfl) (fun _ => rfl) (fun _ => rfl)
    (by decide) (by decide) pursuitOps_blind (by simp [pursuitOps, JsonObject.find])
    (by
      intro c hc
      have hc' : c = { target := some 2, targetIndex := 3 } := by
        simp only [sceneMissile, Option.some.injEq] at hc
        exact hc.symm
      subst hc'
      exact ⟨{ target := none, targetIndex := 3 }, by
        simp [pursuitOps, JsonObject.find, JsonObject.assign, sceneSpace], by
        simp [pursuitOps, sceneSpace]⟩)

/-! ### Texture cache -/

theorem TextureCacheMap.filter_ne_eq_self (m_textures : TextureCacheMap) (key : TextureCacheKey)
    (h : key ∉ m_textures.map Prod.fst) :
    m_textures.filter (fun e => !(e.1 == key)) = m_textures := by
  rw [List.filter_eq_self]
  intro e he
  have : e.1 ≠ key := fun heq => h (heq ▸ List.mem_map_of_mem Prod.fst he)
  simpa using this

/-- In a map with one entry per key, erasing the entry found for `key` leaves
the entries of the other keys. -/
theorem TextureCacheMap.eraseP_eq_filter (m_textures : TextureCacheMap) (key : TextureCacheKey)
    (hu : m_textures.UniqueKeys) :
    m_textures.eraseP (fun e => e.1 == key) = m_textures.filter (fun e => !(e.1 == key)) := by
  induction m_textures with
  | nil => rfl
  | cons e es ih =>
    have hu' : (e.1 ∉ es.map Prod.fst) ∧ (es.map Prod.fst).Nodup := by
      simpa [TextureCacheMap.UniqueKeys] using hu
    by_cases he : e.1 = key
    · have hes := TextureCacheMap.filter_ne_eq_self es key (he ▸ hu'.1)
      simp [List.eraseP_cons, List.filter_cons, he, hes]
    · have ih' := ih hu'.2
      simp [List.eraseP_cons, List.filter_cons, he, ih']

theorem TextureCacheMap.find_eq_none_iff (m_textures : TextureCacheMap) (key : TextureCacheKey) :
    m_textures.find key = none ↔ key ∉ m_textures.map Prod.fst := by
  simp only [TextureCacheMap.find, List.find?_eq_none, List.mem_map, not_exists, not_and]
  constructor
  · intro h e he heq
    exact absurd (by simpa using heq) (h e he)
  · intro h e he heq
    exact h e he (by simpa using heq)

/-- The cache `RemoveCachedTexture` leaves, in a map with one entry per key. -/
theorem RemoveCachedTexture_fst (m_textures : TextureCacheMap) (type name : String)
    (hu : m_textures.UniqueKeys) :
    (RemoveCachedTexture m_textures type name).1
      = m_textures.filter (fun e => !(e.1 == (type, name))) := by
  unfold RemoveCachedTexture
  cases h : m_textures.find (type, name) with
  | none =>
    simp only []
    exact (TextureCacheMap.filter_ne_eq_self m_textures _
      ((TextureCacheMap.find_eq_none_iff _ _).mp h)).symm
  | some i =>
    simp only []
    exact TextureCacheMap.eraseP_eq_filter m_textures _ hu

theorem RemoveCachedTexture_released (m_textures : TextureCacheMap) (type name : String) :
    releasedBy (RemoveCachedTexture m_textures type name).2 =
      match m_textures.find (type, name) with
      | some i => [i.2]
      | none => [] := by
  unfold RemoveCachedTexture
  cases h : m_textures.find (type, name) <;> rfl

theorem releasedBy_append (l₁ l₂ : List RefEvent) :
    releasedBy (l₁ ++ l₂) = releasedBy l₁ ++ releasedBy l₂ := by
  induction l₁ with
  | nil => rfl
  | cons e es ih => cases e <;> simp [releasedBy, ih]

theorem TextureCacheMap.find_filter_ne (m_textures : TextureCacheMap)
    (key key' : TextureCacheKey) (h : key' ≠ key) :
    TextureCacheMap.find (m_textures.filter (fun e => !(e.1 == key))) key'
      = TextureCacheMap.find m_textures key' := by
  unfold TextureCacheMap.find
  induction m_textures with
  | nil => rfl
  | cons e es ih =>
    obtain ⟨k, v⟩ := e
    have hk : (key == key') = false := by simpa using (Ne.symm h)
    by_cases he : k = key
    · subst he
      simp [List.filter_cons, List.find?_cons, hk, ih]
    · have hne : (k == key) = false := by simpa using he
      simp [List.filter_cons, List.find?_cons, hne, ih]

/-- C9. In a cache with one entry per key (a `std::map`), after
`AddCachedTexture(type, name, texture)`: `GetCachedTexture(type, name)` returns
`texture`, the cache holds exactly one entry for the key, the reference of the
entry stored under the key before (if any) was released exactly once and no
other reference was released, and the entries of every other key are as before. -/
theorem AddCachedTexture_replaces (m_textures : TextureCacheMap) (type name : String)
    (texture : Option TexturePtr) (hu : m_textures.UniqueKeys) :
    GetCachedTexture (AddCachedTexture m_textures type name texture).1 type name = texture ∧
    (AddCachedTexture m_textures type name texture).1.entriesFor (type, name) = 1 ∧
    releasedBy (AddCachedTexture m_textures type name texture).2 =
      (match m_textures.find (type, name) with
        | some i => [i.2]
        | none => []) ∧
    (∀ key, key ≠ (type, name) →
      (AddCachedTexture m_textures type name texture).1.find key = m_textures.find key) ∧
    (AddCachedTexture m_textures type name texture).1.UniqueKeys := by
  have hr := RemoveCachedTexture_fst m_textures type name hu
  have hnot : (type, name) ∉
      (m_textures.filter (fun e => !(e.1 == (type, name)))).map Prod.fst := by
    simp [List.mem_map, List.mem_filter]
  have hnone := (TextureCacheMap.find_eq_none_iff _ _).mpr hnot
  have hadd : (AddCachedTexture m_textures type name texture).1
      = m_textures.filter (fun e => !(e.1 == (type, name))) ++ [((type, name), texture)] := by
    simp only [AddCachedTexture, hr, TextureCacheMap.insert, hnone]
  have hfilter : (m_textures.filter (fun e => !(e.1 == (type, name)))).filter
      (fun e => e.1 == (type, name)) = [] := by
    rw [List.filter_filter, List.filter_eq_nil_iff]
    intro e _
    by_cases he : e.1 = (type, name) <;> simp [he]
  refine ⟨?_, ?_, ?_, ?_, ?_⟩
  · rw [hadd]
    unfold GetCachedTexture
    unfold TextureCacheMap.find at hnone ⊢
    simp [List.find?_append, hnone]
  · rw [hadd]
    unfold TextureCacheMap.entriesFor
    rw [List.filter_append, hfilter]
    simp
  · simp only [AddCachedTexture, releasedBy_append, RemoveCachedTexture_released]
    simp [releasedBy]
  · intro key hkey
    rw [hadd]
    have hk : ((type, name) == key) = false := by simpa using (Ne.symm hkey)
    have h1 := TextureCacheMap.find_filter_ne m_textures (type, name) key hkey
    unfold TextureCacheMap.find at h1 ⊢
    rw [List.find?_append, h1]
    cases List.find? (fun e => e.1 == key) m_textures <;> simp [hk]
  · rw [hadd]
    unfold TextureCacheMap.UniqueKeys at hu ⊢
    rw [List.map_append, List.nodup_append]
    refine ⟨(List.filter_sublist _).map Prod.fst |>.nodup hu, by simp, ?_⟩
    intro a ha hb
    simp only [List.map_cons, List.map_nil, List.mem_singleton] at hb
    exact hnot (hb ▸ ha)

/-- Witness of C9: replacing the texture stored under `("ui", "icon")`. -/
theorem AddCachedTexture_replaces_witness :
    sceneCache.UniqueKeys ∧
    GetCachedTexture (AddCachedTexture sceneCache "ui" "icon" (some 3)).1 "ui" "icon" = some 3 ∧
    (AddCachedTexture sceneCache "ui" "icon" (some 3)).1.entriesFor ("ui", "icon") = 1 ∧
    releasedBy (AddCachedTexture sceneCache "ui" "icon" (some 3)).2 = [some 1] :=
  have hu : sceneCache.UniqueKeys := by
    unfold TextureCacheMap.UniqueKeys sceneCache
    decide
  ⟨hu, (AddCachedTexture_replaces sceneCache "ui" "icon" (some 3) hu).1,
    (AddCachedTexture_replaces sceneCache "ui" "icon" (some 3) hu).2.1,
    (AddCachedTexture_replaces sceneCache "ui" "icon" (some 3) hu).2.2.1⟩

/-! ### Matrix ticket -/

@[simp] theorem MatrixState.setStack_stack_self (r : MatrixState Mat) (mm : MatrixMode)
    (s : MatrixStack Mat) : (r.setStack mm s).stack mm = s := by
  simp [MatrixState.setStack]

theorem MatrixState.setStack_stack_of_ne (r : MatrixState Mat) (mm mm' : MatrixMode)
    (s : MatrixStack Mat) (h : mm' ≠ mm) : (r.setStack mm s).stack mm' = r.stack mm' := by
  simp [MatrixState.setStack, h]

@[simp] theorem MatrixState.setStack_mode (r : MatrixState Mat) (mm : MatrixMode)
    (s : MatrixStack Mat) : (r.setStack mm s).m_matrixMode = r.m_matrixMode := rfl

/-- Replacing the active matrix keeps what is saved below, on every stack. -/
theorem MatrixState.setActive_below (r : MatrixState Mat) (t : Mat) (mm : MatrixMode) :
    ((r.setActive t).stack mm).below = (r.stack mm).below := by
  unfold MatrixState.setActive
  by_cases h : mm = r.m_matrixMode
  · subst h
    simp
  · rw [MatrixState.setStack_stack_of_ne _ _ _ _ h]

/-- Balanced calls run to the end and leave, on every stack, what was saved
below the level they started from. -/
theorem runOps_balanced (ar : MatrixArith Mat) (ops : List (MatrixOp Mat)) :
    ∀ (r : MatrixState Mat) (depth : MatrixMode → Nat) (base : MatrixMode → List Mat),
      (∀ mm, ∃ pre, (r.stack mm).below = pre ++ base mm ∧ pre.length = depth mm) →
      balancedFrom r.m_matrixMode depth ops = true →
      ∃ r', runOps ar ops r = some r' ∧ ∀ mm, (r'.stack mm).below = base mm := by
  induction ops with
  | nil =>
    intro r depth base hinv hbal
    refine ⟨r, rfl, fun mm => ?_⟩
    simp only [balancedFrom, Bool.and_eq_true, beq_iff_eq] at hbal
    obtain ⟨pre, hpre, hlen⟩ := hinv mm
    have hd : depth mm = 0 := by cases mm <;> simp [hbal.1, hbal.2]
    rw [hd, List.length_eq_zero] at hlen
    rw [hpre, hlen, List.nil_append]
  | cons op ops ih =>
    intro r depth base hinv hbal
    cases op with
    | SetMatrixMode mm =>
      exact ih (r.SetMatrixMode mm) depth base hinv hbal
    | PushMatrix =>
      simp only [balancedFrom] at hbal
      refine ih r.PushMatrix _ base (fun mm => ?_) hbal
      by_cases h : mm = r.m_matrixMode
      · obtain ⟨pre, hpre, hlen⟩ := hinv mm
        rw [h] at hpre hlen ⊢
        exact ⟨(r.stack r.m_matrixMode).top :: pre, by simp [MatrixState.PushMatrix, hpre],
          by simp [hlen]⟩
      · obtain ⟨pre, hpre, hlen⟩ := hinv mm
        refine ⟨pre, ?_, by simp [h, hlen]⟩
        unfold MatrixState.PushMatrix
        rw [MatrixState.setStack_stack_of_ne _ _ _ _ h, hpre]
    | PopMatrix =>
      simp only [balancedFrom, Bool.and_eq_true, bne_iff_ne, ne_eq] at hbal
      obtain ⟨pre, hpre, hlen⟩ := hinv r.m_matrixMode
      cases pre with
      | nil => exact absurd hlen.symm hbal.1
      | cons p pre' =>
        have hpop : r.PopMatrix = some (r.setStack r.m_matrixMode
            { top := p, below := pre' ++ base r.m_matrixMode }) := by
          simp [MatrixState.PopMatrix, hpre]
        have hrun : runOps ar (MatrixOp.PopMatrix :: ops) r
            = runOps ar ops (r.setStack r.m_matrixMode
                { top := p, below := pre' ++ base r.m_matrixMode }) := by
          simp [runOps, MatrixOp.apply, hpop]
        rw [hrun]
        refine ih _ _ base (fun mm => ?_) hbal.2
        by_cases h : mm = r.m_matrixMode
        · rw [h]
          refine ⟨pre', by simp, ?_⟩
          simp only [MatrixState.setStack_mode, if_true]
          rw [← hlen]
          simp
        · obtain ⟨pre2, hpre2, hlen2⟩ := hinv mm
          refine ⟨pre2, ?_, by simp [h, hlen2]⟩
          rw [MatrixState.setStack_stack_of_ne _ _ _ _ h, hpre2]
    | LoadIdentity =>
      refine ih (r.setActive ar.Identity) depth base (fun mm => ?_) hbal
      rw [MatrixState.setActive_below]
      exact hinv mm
    | LoadMatrix t =>
      refine ih (r.setActive t) depth base (fun mm => ?_) hbal
      rw [MatrixState.setActive_below]
      exact hinv mm
    | Translate x y z =>
      refine ih (r.setActive (ar.Translate x y z r.active)) depth base (fun mm => ?_) hbal
      rw [MatrixState.setActive_below]
      exact hinv mm
    | Scale x y z =>
      refine ih (r.setActive (ar.Scale x y z r.active)) depth base (fun mm => ?_) hbal
      rw [MatrixState.setActive_below]
      exact hinv mm

/-- C10, counterexample. A modelview ticket taken while the projection mode is
active: the calls are balanced, yet after release the active matrix is the
modelview top 1, not the projection top 2 that was active before the
acquisition, and the active mode is not the one from before either. -/
theorem MatrixTicket_active_matrix_differs :
    balancedFrom MatrixMode.MODELVIEW (fun _ => 0) sceneOps = true ∧
    sceneMatrices.active = 2 ∧
    ∃ r', MatrixTicket.scope scalarArith sceneMatrices MatrixMode.MODELVIEW sceneOps = some r' ∧
      r'.active = 1 ∧ r'.active ≠ sceneMatrices.active ∧
      r'.m_matrixMode ≠ sceneMatrices.m_matrixMode := by
  refine ⟨by decide, rfl, ?_⟩
  refine ⟨_, rfl, ?_, ?_, ?_⟩
  · simp [MatrixState.active, MatrixState.setStack, MatrixState.SetMatrixMode, sceneMatrices]
  · simp [MatrixState.active, MatrixState.setStack, MatrixState.SetMatrixMode, sceneMatrices]
  · simp [MatrixState.setStack, MatrixState.SetMatrixMode, sceneMatrices]

/-- C10, amended. For balanced calls made while a `MatrixTicket(r, m)` is alive,
the release succeeds and afterwards the stack of mode `m` has its
pre-acquisition top, contents and depth, the active mode is `m` right after the
acquisition and after the release, so the active matrix is the pre-acquisition
top of mode `m`; it is the pre-acquisition active matrix when `m` was the
active mode before the acquisition. -/
theorem MatrixTicket_scope_restores (ar : MatrixArith Mat) (r : MatrixState Mat)
    (m : MatrixMode) (ops : List (MatrixOp Mat))
    (hbal : balancedFrom m (fun _ => 0) ops = true) :
    ∃ r', MatrixTicket.scope ar r m ops = some r' ∧
      r'.stack m = r.stack m ∧
      (MatrixTicket.acquire r m).m_matrixMode = m ∧
      r'.m_matrixMode = m ∧
      r'.active = (r.stack m).top ∧
      (r.m_matrixMode = m → r'.active = r.active) := by
  have hacq : (MatrixTicket.acquire r m).m_matrixMode = m := rfl
  obtain ⟨r1, hrun, hbelow⟩ := runOps_balanced ar ops (MatrixTicket.acquire r m)
    (fun _ => 0) (fun mm => ((MatrixTicket.acquire r m).stack mm).below)
    (fun mm => ⟨[], rfl, rfl⟩) (by rw [hacq]; exact hbal)
  have hm : ((MatrixTicket.acquire r m).stack m).below = (r.stack m).top :: (r.stack m).below := by
    simp [MatrixTicket.acquire, MatrixState.PushMatrix, MatrixState.SetMatrixMode]
  have hpop : MatrixTicket.release r1 m
      = some ((r1.SetMatrixMode m).setStack m (r.stack m)) := by
    have h1 := hbelow m
    rw [hm] at h1
    simp [MatrixTicket.release, MatrixState.PopMatrix, MatrixState.SetMatrixMode, h1]
  refine ⟨(r1.SetMatrixMode m).setStack m (r.stack m),
    by simp only [MatrixTicket.scope, hrun, hpop], by simp, hacq, rfl, ?_, ?_⟩
  · simp [MatrixState.active, MatrixState.SetMatrixMode]
  · intro h
    subst h
    simp [MatrixState.active, MatrixState.SetMatrixMode]

/-- Witness of C10 amended: the example calls under a modelview ticket. -/
theorem MatrixTicket_scope_restores_witness :
    ∃ r', MatrixTicket.scope scalarArith sceneMatrices MatrixMode.MODELVIEW sceneOps = some r' ∧
      r'.stack MatrixMode.MODELVIEW = sceneMatrices.stack MatrixMode.MODELVIEW ∧
      r'.m_matrixMode = MatrixMode.MODELVIEW :=
  match MatrixTicket_scope_restores scalarArith sceneMatrices MatrixMode.MODELVIEW sceneOps
      (by decide) with
  | ⟨r', h1, h2, _, h4, _⟩ => ⟨r', h1, h2, h4⟩

/-! ### Power rank of a fresh projectile -/

/-- C11. With the three tier ids pairwise distinct, a fresh projectile built
with a negative power argument has power rank 1 for the guided id, 2 for the
smart id, 3 for the naval id and 0 for every other id; built with a power
argument `p ≥ 0` it has power rank `p`, whatever the id. The firer is stored as
the owner in every case. -/
theorem create_power_rank (k : MissileConsts) (dflt : ShipType) (types : ShipTypes)
    (self : BodyPtr) (props : PropertyMap) (ownerIndex : Int) (armed : Bool) (shipId : String)
    (owner : Option BodyPtr) (power : Int)
    (hgs : k.MISSILE_GUIDED ≠ k.MISSILE_SMART) (hgn : k.MISSILE_GUIDED ≠ k.MISSILE_NAVAL)
    (hsn : k.MISSILE_SMART ≠ k.MISSILE_NAVAL) :
    (power < 0 →
      (shipId = k.MISSILE_GUIDED →
        ((Missile.create k dflt types self props ownerIndex armed shipId owner power :
          ShipTypes × Missile AICmd × List String).2.1).m_power = 1) ∧
      (shipId = k.MISSILE_SMART →
        ((Missile.create k dflt types self props ownerIndex armed shipId owner power :
          ShipTypes × Missile AICmd × List String).2.1).m_power = 2) ∧
      (shipId = k.MISSILE_NAVAL →
        ((Missile.create k dflt types self props ownerIndex armed shipId owner power :
          ShipTypes × Missile AICmd × List String).2.1).m_power = 3) ∧
      (shipId ≠ k.MISSILE_GUIDED → shipId ≠ k.MISSILE_SMART → shipId ≠ k.MISSILE_NAVAL →
        ((Missile.create k dflt types self props ownerIndex armed shipId owner power :
          ShipTypes × Missile AICmd × List String).2.1).m_power = 0)) ∧
    (0 ≤ power →
      ((Missile.create k dflt types self props ownerIndex armed shipId owner power :
        ShipTypes × Missile AICmd × List String).2.1).m_power = power) ∧
    ((Missile.create k dflt types self props ownerIndex armed shipId owner power :
      ShipTypes × Missile AICmd × List String).2.1).m_owner = owner := by
  have hp : ((Missile.create k dflt types self props ownerIndex armed shipId owner power :
      ShipTypes × Missile AICmd × List String).2.1).m_power
        = Missile.create.power k shipId power := rfl
  rw [hp]
  refine ⟨fun hneg => ⟨fun h => ?_, fun h => ?_, fun h => ?_, fun h1 h2 h3 => ?_⟩,
    fun hpos => ?_, rfl⟩
  · subst h
    simp [Missile.create.power, hneg, hgs, hgn]
  · subst h
    simp [Missile.create.power, hneg, hsn]
  · subst h
    simp [Missile.create.power, hneg]
  · simp [Missile.create.power, hneg, h1, h2, h3]
  · simp [Missile.create.power, not_lt.mpr hpos]

/-- Witness of C11: the guided tier without override has rank 1, with the
override 7 it has rank 7. -/
theorem create_power_rank_witness :
    ((Missile.create sceneConsts defaultType sceneTypes 7 (fun _ => none) 0 true
        "missile_guided" (some 1) (-1) :
          ShipTypes × Missile PursuitCmd × List String).2.1).m_power = 1 ∧
    ((Missile.create sceneConsts defaultType sceneTypes 7 (fun _ => none) 0 true
        "missile_guided" (some 1) 7 :
          ShipTypes × Missile PursuitCmd × List String).2.1).m_power = 7 :=
  ⟨((create_power_rank sceneConsts defaultType sceneTypes 7 (fun _ => none) 0 true
      "missile_guided" (some 1) (-1) (by decide) (by decide) (by decide)).1 (by decide)).1 rfl,
   (create_power_rank sceneConsts defaultType sceneTypes 7 (fun _ => none) 0 true
      "missile_guided" (some 1) 7 (by decide) (by decide) (by decide)).2.1 (by decide)⟩

/-! ### Electronic countermeasure -/

/-- C12. On a live projectile, `ECMAttack(power_val)` detonates (its outcome is
that of `Explode`, reached through the damage handler) exactly when
`power_val > m_power`; when `power_val ≤ m_power` nothing is called and the
space is unchanged. No path of `ECMAttack` writes a member of the projectile. -/
theorem ECMAttack_detonates_iff (ph : Physics) (m : Missile AICmd) (power_val : Int)
    (sp : Space) (hlive : sp.IsDead m.self = false) :
    (m.ECMAttack ph power_val sp = m.Explode ph sp ↔ power_val > m.m_power) ∧
    (power_val > m.m_power →
      m.ECMAttack ph power_val sp
        = ((m.OnDamage ph none 1 sp).1, (m.OnDamage ph none 1 sp).2.1) ∧
      m.OnDamage ph none 1 sp = ((m.Explode ph sp).1, (m.Explode ph sp).2, true)) ∧
    (power_val ≤ m.m_power → m.ECMAttack ph power_val sp = (sp, [])) := by
  have hdmg : m.OnDamage ph none 1 sp = ((m.Explode ph sp).1, (m.Explode ph sp).2, true) := by
    simp [Missile.OnDamage, hlive]
  have hgt : power_val > m.m_power → m.ECMAttack ph power_val sp = m.Explode ph sp := by
    intro h
    simp only [Missile.ECMAttack, h, if_true, hdmg]
  have hle : power_val ≤ m.m_power → m.ECMAttack ph power_val sp = (sp, []) := by
    intro h
    simp only [Missile.ECMAttack, not_lt.mpr h, if_false]
  refine ⟨⟨fun h => ?_, hgt⟩, fun h => ⟨by simp only [Missile.ECMAttack, h, if_true], hdmg⟩, hle⟩
  by_contra hn
  rw [hle (not_lt.mp hn)] at h
  exact Explode_ne_quiet ph m sp sp h.symm

/-- Witness of C12: the example projectile has power rank 1; a counter-power of
2 detonates it, a counter-power of 1 does nothing. -/
theorem ECMAttack_detonates_iff_witness :
    sceneSpace.IsDead sceneMissile.self = false ∧
    sceneMissile.ECMAttack restPhysics 2 sceneSpace = sceneMissile.Explode restPhysics sceneSpace ∧
    sceneMissile.ECMAttack restPhysics 1 sceneSpace = (sceneSpace, []) :=
  ⟨rfl, (ECMAttack_detonates_iff restPhysics sceneMissile 2 sceneSpace rfl).1.mpr (by decide),
    (ECMAttack_detonates_iff restPhysics sceneMissile 1 sceneSpace rfl).2.2 (by decide)⟩

/-! ### Arming -/

theorem PropertyMap.Set_Set (p : PropertyMap) (k : String) (v v' : PropertyValue) :
    ((p.Set k v).1.Set k v').1 = (p.Set k v').1 := by
  funext k'
  by_cases h : k' = k <;> simp [PropertyMap.Set, h]

theorem armCall_sets (m : Missile AICmd) (c : ArmCall) :
    (m.armCall c).1.m_armed = c.value ∧
      (m.armCall c).1.isArmed = some (PropertyValue.boolean c.value) := by
  cases c <;> simp [Missile.armCall, Missile.Arm, Missile.Disarm, Missile.isArmed,
    PropertyMap.Set, ArmCall.value]

theorem armCalls_append_single (cs : List ArmCall) :
    ∀ (m : Missile AICmd) (c : ArmCall),
      (m.armCalls (cs ++ [c])).1 = ((m.armCalls cs).1.armCall c).1 := by
  induction cs with
  | nil => intro m c; rfl
  | cons c' cs ih =>
    intro m c
    simp only [List.cons_append, Missile.armCalls]
    exact ih _ c

/-- C13. `Arm` after `Arm` leaves the projectile as one `Arm` does, with the
armed flag true and the property `isArmed` true; `Disarm` after `Disarm` leaves
it as one `Disarm` does, with both false; after any sequence of `Arm`/`Disarm`
calls the flag and the property both hold the value of the last call, so
`Disarm`, `Arm`, `Disarm` ends disarmed. Every call, a repeated one included,
signals the key `isArmed` once. -/
theorem Arm_Disarm_idempotent (m : Missile AICmd) :
    (m.Arm.1.Arm.1 = m.Arm.1 ∧ m.Arm.1.m_armed = true ∧
      m.Arm.1.isArmed = some (PropertyValue.boolean true)) ∧
    (m.Disarm.1.Disarm.1 = m.Disarm.1 ∧ m.Disarm.1.m_armed = false ∧
      m.Disarm.1.isArmed = some (PropertyValue.boolean false)) ∧
    (∀ (cs : List ArmCall) (c : ArmCall),
      (m.armCalls (cs ++ [c])).1.m_armed = c.value ∧
      (m.armCalls (cs ++ [c])).1.isArmed = some (PropertyValue.boolean c.value)) ∧
    ((m.armCalls [ArmCall.Disarm, ArmCall.Arm, ArmCall.Disarm]).1.m_armed = false ∧
      (m.armCalls [ArmCall.Disarm, ArmCall.Arm, ArmCall.Disarm]).1.isArmed
        = some (PropertyValue.boolean false)) ∧
    (m.Arm.2 = ["isArmed"] ∧ m.Arm.1.Arm.2 = ["isArmed"] ∧ m.Disarm.2 = ["isArmed"] ∧
      m.Disarm.1.Disarm.2 = ["isArmed"]) := by
  have hseq : ∀ (cs : List ArmCall) (c : ArmCall),
      (m.armCalls (cs ++ [c])).1.m_armed = c.value ∧
      (m.armCalls (cs ++ [c])).1.isArmed = some (PropertyValue.boolean c.value) := by
    intro cs c
    rw [armCalls_append_single]
    exact armCall_sets _ c
  refine ⟨⟨?_, rfl, ?_⟩, ⟨?_, rfl, ?_⟩, hseq, ?_, ⟨rfl, rfl, rfl, rfl⟩⟩
  · simp only [Missile.Arm, PropertyMap.Set_Set]
  · simp [Missile.Arm, Missile.isArmed, PropertyMap.Set]
  · simp only [Missile.Disarm, PropertyMap.Set_Set]
  · simp [Missile.Disarm, Missile.isArmed, PropertyMap.Set]
  · exact hseq [ArmCall.Disarm, ArmCall.Arm] ArmCall.Disarm

end Pioneer
